import Mathlib

/-!
Verification of the StatsIQ aggregate worker's analytics kernel and write path.

The Go source is shallowly embedded: UUIDs become `Nat` identifiers, Go maps
become lookup functions or association lists (iterated in insertion order,
a determinization of Go's unspecified map order that is noted wherever it
could matter), millisecond timestamps become `Int`, and Go `float64`
quantities that only ever participate in order comparisons become `ℚ`.
Each definition carries the name of the Go function or type it embeds.
-/

namespace Aggregate

/-- Player identifiers (UUIDs in the source). -/
abbrev PlayerId := Nat

/-- Team identifiers (UUIDs in the source). -/
abbrev TeamId := Nat

/-- Round identifiers (UUIDs in the source). -/
abbrev RoundId := Nat

/-- `RedTeamID`, the fixed global team UUID `00000000-…-01` from model.go,
embedded as the numeric identifier 1. -/
def RedTeamID : TeamId := 1

/-- `BlueTeamID`, the fixed global team UUID `00000000-…-02` from model.go,
embedded as the numeric identifier 2. -/
def BlueTeamID : TeamId := 2

/-- `TradeWindowMS` from model.go. -/
def TradeWindowMS : Int := 3000

/-- `ClutchIdentificationDelayMS` from model.go. -/
def ClutchIdentificationDelayMS : Int := 3000

/-- `RoundEventData` (builder.go): a kill or damage event.  Fields that no
verified function reads (event id, match id, weapon id/category, assistants)
are omitted. -/
structure RoundEventData where
  roundID : RoundId
  timestampMS : Int
  eventType : String
  playerID : PlayerId
  victimID : Option PlayerId
  damageGiven : Option Int := none
  headshot : Option Int := none
  bodyshot : Option Int := none
  legshot : Option Int := none
  weapon : Option String := none
  deriving Repr, DecidableEq

/-- `RoundData` (builder.go).  `winningTeam`, `winMethod` and `spikeEvent`
are not read by any verified function and are omitted. -/
structure RoundData where
  id : RoundId
  roundNumber : Int
  winnerTeamID : Option TeamId := none
  plantTimeMS : Option Int := none
  deriving Repr, DecidableEq

/-- `getOppositeSide` (builder.go): returns the opposite side. -/
def getOppositeSide (side : String) : String :=
  if side = "Attack" then "Defense" else "Attack"

/-- `IsOvertimeRound` (model.go): round_number >= 24. -/
def IsOvertimeRound (roundNumber : Int) : Bool :=
  roundNumber ≥ 24

/-- `IsMatchOvertime` (model.go): either team has more than 13 rounds. -/
def IsMatchOvertime (teamRedScore teamBlueScore : Int) : Bool :=
  teamRedScore > 13 || teamBlueScore > 13

/-- `DetermineSideByTag` (model.go lines 841-895): side for a team tag in a
given round.  Go's `int16` arithmetic on `roundNumber` uses truncated
division and remainder, embedded with `Int.tdiv` / `Int.tmod`. -/
def DetermineSideByTag (roundNumber : Int) (teamTag : String) : String :=
  let isRedTeam := teamTag = "Red" ∨ teamTag = "RED"
  if roundNumber < 12 then
    -- First half (rounds 0-11)
    if isRedTeam then "Attack" else "Defense"
  else if roundNumber < 24 then
    -- Second half (rounds 12-23)
    if isRedTeam then "Defense" else "Attack"
  else
    -- Overtime (rounds 24+): each OT period is 2 rounds
    let overtimeRound := roundNumber - 24
    let otPeriod := overtimeRound.tdiv 2
    let roundInPeriod := overtimeRound.tmod 2
    let redStartsAttack := otPeriod.tmod 2 = 0
    if isRedTeam then
      if redStartsAttack then
        if roundInPeriod = 0 then "Attack" else "Defense"
      else
        if roundInPeriod = 0 then "Defense" else "Attack"
    else
      if redStartsAttack then
        if roundInPeriod = 0 then "Defense" else "Attack"
      else
        if roundInPeriod = 0 then "Attack" else "Defense"

/-- `DetermineSide` (model.go lines 900-906, the tag-map variant): looks up
the team tag and falls back to "Attack" when the team is unknown. -/
def DetermineSide (roundNumber : Int) (teamID : TeamId)
    (teamTagMap : TeamId → Option String) : String :=
  match teamTagMap teamID with
  | none => "Attack"
  | some teamTag => DetermineSideByTag roundNumber teamTag

/-- `DetermineSide` (model.go lines 316-370 of the earlier revision kept in
the file, the two-argument variant used by `BuildTeamMatchSideStats` in
builder.go): decides red by comparing the team id with the global
`RedTeamID` constant. -/
def DetermineSideByID (roundNumber : Int) (teamID : TeamId) : String :=
  if roundNumber < 12 then
    if teamID = RedTeamID then "Attack" else "Defense"
  else if roundNumber < 24 then
    if teamID = RedTeamID then "Defense" else "Attack"
  else
    let overtimeRound := roundNumber - 24
    let otPeriod := overtimeRound.tdiv 2
    let roundInPeriod := overtimeRound.tmod 2
    let redStartsAttack := otPeriod.tmod 2 = 0
    if teamID = RedTeamID then
      if redStartsAttack then
        if roundInPeriod = 0 then "Attack" else "Defense"
      else
        if roundInPeriod = 0 then "Defense" else "Attack"
    else
      if redStartsAttack then
        if roundInPeriod = 0 then "Defense" else "Attack"
      else
        if roundInPeriod = 0 then "Attack" else "Defense"

theorem tdiv_two_eq (a : Int) (ha : 0 ≤ a) : a.tdiv 2 = a / 2 :=
  Int.tdiv_eq_ediv ha (by norm_num)

theorem tmod_two_eq (a : Int) (ha : 0 ≤ a) : a.tmod 2 = a % 2 :=
  Int.tmod_eq_emod ha (by norm_num)

/-- C3: side assignment from round number and team tag.  Rounds 0-11:
Red = Attack, Blue = Defense.  Rounds 12-23: inverted.  From round 24 on,
overtime periods are consecutive round pairs starting at 24; Red's side on
the first round of period `k` is Attack for even `k` and Defense for odd
`k`, the second round of each period inverts the first, and Blue is always
the opposite of Red. -/
theorem C3_determine_side_by_tag (n : Int) (hn : 0 ≤ n) :
    DetermineSideByTag n "Blue" = getOppositeSide (DetermineSideByTag n "Red") ∧
    (n ≤ 11 → DetermineSideByTag n "Red" = "Attack") ∧
    (12 ≤ n → n ≤ 23 → DetermineSideByTag n "Red" = "Defense") ∧
    (∀ k : Nat, n = 24 + 2 * (k : Int) →
      DetermineSideByTag n "Red" = (if k % 2 = 0 then "Attack" else "Defense") ∧
      DetermineSideByTag (n + 1) "Red" = getOppositeSide (DetermineSideByTag n "Red")) := by
  refine ⟨?_, ?_, ?_, ?_⟩
  · by_cases h1 : n < 12
    · simp [DetermineSideByTag, getOppositeSide, h1]
    · by_cases h2 : n < 24
      · simp [DetermineSideByTag, getOppositeSide, h1, h2]
      · by_cases h3 : ((n - 24).tdiv 2).tmod 2 = 0 <;>
          by_cases h4 : (n - 24).tmod 2 = 0 <;>
          simp [DetermineSideByTag, getOppositeSide, h1, h2, h3, h4]
  · intro h
    have h1 : n < 12 := by omega
    simp [DetermineSideByTag, h1]
  · intro h1 h2
    have h3 : ¬ (n < 12) := by omega
    have h4 : n < 24 := by omega
    simp [DetermineSideByTag, h3, h4]
  · intro k hk
    have h24 : ¬ (n < 12) := by omega
    have h24' : ¬ (n < 24) := by omega
    have h25 : ¬ (n + 1 < 12) := by omega
    have h25' : ¬ (n + 1 < 24) := by omega
    have hdiv : (n - 24).tdiv 2 = k := by
      rw [tdiv_two_eq _ (by omega)]; omega
    have hmod : (n - 24).tmod 2 = 0 := by
      rw [tmod_two_eq _ (by omega)]; omega
    have hdiv' : (n + 1 - 24).tdiv 2 = k := by
      rw [tdiv_two_eq _ (by omega)]; omega
    have hmod' : (n + 1 - 24).tmod 2 = 1 := by
      rw [tmod_two_eq _ (by omega)]; omega
    have hpar : (k : Int).tmod 2 = 0 ↔ k % 2 = 0 := by
      rw [tmod_two_eq _ (by omega)]
      omega
    unfold DetermineSideByTag getOppositeSide
    simp only [h24, h24', h25, h25', if_false, hdiv, hmod, hdiv', hmod']
    by_cases hk2 : k % 2 = 0 <;> simp_all

/-- Witness for C3 at the concrete round 26 = 24 + 2·1 (second overtime
period, whose first round has Red on Defense since the period index 1 is
odd) and its partner round 27. -/
theorem C3_determine_side_by_tag_witness :
    DetermineSideByTag 26 "Red" = "Defense" ∧
    DetermineSideByTag 27 "Red" = getOppositeSide (DetermineSideByTag 26 "Red") := by
  have h := (C3_determine_side_by_tag 26 (by norm_num)).2.2.2 1 (by norm_num)
  exact ⟨by simpa using h.1, h.2⟩

/-! ## Trade detection (round_player_stats.go, `ComputeTrades`) -/

/-- `TradeResult` (model.go): trade counters for a player in a round. -/
structure TradeResult where
  tradeKills : Nat := 0
  tradedDeaths : Nat := 0
  deriving Repr, DecidableEq

/-- The `victimHasTeam && futureKillerHasTeam && futureKillerTeam == victimTeam`
pattern of ComputeTrades: both players have a team binding and the teams
coincide. -/
def sameTeam (playerTeam : PlayerId → Option TeamId) (a b : PlayerId) : Bool :=
  match playerTeam a, playerTeam b with
  | some ta, some tb => ta = tb
  | _, _ => false

/-- Forward "TRADED DEATH" scan of `ComputeTrades` (round_player_stats.go
lines 283-303): walk the kills after index `i` in order, stop at the first
kill past the trade window, and report whether a kill of `killerID` by a
teammate of `victimID` occurs inside the window. -/
def tradedDeathScan (playerTeam : PlayerId → Option TeamId)
    (killerID victimID : PlayerId) (killTime : Int) :
    List RoundEventData → Bool
  | [] => false
  | futureKill :: rest =>
    if futureKill.timestampMS > killTime + TradeWindowMS then false
    else if futureKill.victimID == some killerID &&
        sameTeam playerTeam victimID futureKill.playerID then true
    else tradedDeathScan playerTeam killerID victimID killTime rest

/-- Backward "TRADE KILL" scan of `ComputeTrades` (round_player_stats.go
lines 309-329): walk the kills before index `i` in reverse order, stop at
the first kill before the trade window, and report whether `victimID`
killed a teammate of `killerID` inside the window. -/
def tradeKillScan (playerTeam : PlayerId → Option TeamId)
    (killerID victimID : PlayerId) (killTime : Int) :
    List RoundEventData → Bool
  | [] => false
  | pastKill :: rest =>
    if pastKill.timestampMS < killTime - TradeWindowMS then false
    else if pastKill.playerID == victimID &&
        (match pastKill.victimID with
         | some pastVictim => sameTeam playerTeam killerID pastVictim
         | none => false) then true
    else tradeKillScan playerTeam killerID victimID killTime rest

/-- Bump the traded-deaths counter of one player. -/
def bumpTradedDeaths (p : PlayerId) (res : PlayerId → TradeResult) :
    PlayerId → TradeResult :=
  fun q => if q = p then { res q with tradedDeaths := (res q).tradedDeaths + 1 }
           else res q

/-- Bump the trade-kills counter of one player. -/
def bumpTradeKills (p : PlayerId) (res : PlayerId → TradeResult) :
    PlayerId → TradeResult :=
  fun q => if q = p then { res q with tradeKills := (res q).tradeKills + 1 }
           else res q

/-- The main `for i, kill := range kills` loop of `ComputeTrades`
(round_player_stats.go lines 266-330), with the processed prefix carried
explicitly: for the kill at index `i`, the forward scan sees the suffix
`kills[i+1:]` and the backward scan sees the reversed prefix `kills[:i]`.
A kill without a victim cannot occur here (the caller filters them out)
and is skipped. -/
def tradesLoop (playerTeam : PlayerId → Option TeamId)
    (res : PlayerId → TradeResult) (prev : List RoundEventData) :
    List RoundEventData → (PlayerId → TradeResult)
  | [] => res
  | kill :: rest =>
    match kill.victimID with
    | none => tradesLoop playerTeam res (prev ++ [kill]) rest
    | some victimID =>
      let killerID := kill.playerID
      let killTime := kill.timestampMS
      let res1 := if tradedDeathScan playerTeam killerID victimID killTime rest
        then bumpTradedDeaths victimID res else res
      let res2 := if tradeKillScan playerTeam killerID victimID killTime prev.reverse
        then bumpTradeKills killerID res1 else res1
      tradesLoop playerTeam res2 (prev ++ [kill]) rest

/-- The `e.EventType == "kill" && e.VictimID != nil` filter of
`ComputeTrades`. -/
def isKillWithVictim (e : RoundEventData) : Bool :=
  e.eventType = "kill" && e.victimID.isSome

/-- `ComputeTrades` (round_player_stats.go lines 245-334): per-round,
per-player trade counters.  The source's `eventsByRound` grouping keeps
each round's events in input order, so the events of round `roundID` are
exactly the order-preserving filter by that round id; a player absent from
the result map reads as zero counters. -/
def ComputeTrades (events : List RoundEventData)
    (playerTeam : PlayerId → Option TeamId) :
    RoundId → PlayerId → TradeResult :=
  fun roundID =>
    let kills := (events.filter (fun e => e.roundID = roundID)).filter isKillWithVictim
    tradesLoop playerTeam (fun _ => {}) [] kills

/-- C1 fails on the code: `ComputeTrades` never checks that the focal kill
is cross-team.  In a round whose only events are two teamkills on one team
(player 10 teamkills 11 at t=1000, then player 12 — their teammate —
teamkills 10 at t=2000), the code counts 11's death as traded and 12's
kill as a trade kill, although the spec states that teamkills never trade
and the function's own documentation speaks of killing "an opponent". -/
theorem C1_teamkill_trades_at_failing_input :
    let playerTeam : PlayerId → Option TeamId :=
      fun p => if p = 10 ∨ p = 11 ∨ p = 12 then some 1 else none
    let k1 : RoundEventData :=
      { roundID := 7, timestampMS := 1000, eventType := "kill",
        playerID := 10, victimID := some 11 }
    let k2 : RoundEventData :=
      { roundID := 7, timestampMS := 2000, eventType := "kill",
        playerID := 12, victimID := some 10 }
    sameTeam playerTeam 10 11 = true ∧
    sameTeam playerTeam 12 10 = true ∧
    (ComputeTrades [k1, k2] playerTeam 7 11).tradedDeaths = 1 ∧
    (ComputeTrades [k1, k2] playerTeam 7 12).tradeKills = 1 := by
  refine ⟨rfl, rfl, ?_, ?_⟩ <;> decide

/-! ## Entry detection (`ComputeEntries`) and round player stats -/

/-- `EntryResult` (model.go): the round's first kill. -/
structure EntryResult where
  roundID : RoundId
  entryKillerID : PlayerId
  entryVictimID : PlayerId
  timestampMS : Int
  deriving Repr, DecidableEq

/-- The `for _, kill := range kills[1:]` minimum-timestamp scan of
`ComputeEntries`: the first kill with strictly smaller timestamp replaces
the running minimum, so ties keep the earlier kill. -/
def minKillLoop (firstKill : RoundEventData) : List RoundEventData → RoundEventData
  | [] => firstKill
  | kill :: rest =>
    if kill.timestampMS < firstKill.timestampMS then minKillLoop kill rest
    else minKillLoop firstKill rest

/-- `ComputeEntries` (entries source file, lines 9-44): for each round, the
kill event with minimum timestamp yields the (entry-killer, entry-victim)
pair; rounds without kills produce no entry.  The source writes results
into a map keyed by round id in `rounds` order, so a later duplicate round
entry overwrites an earlier one. -/
def ComputeEntries (rounds : List RoundData) (events : List RoundEventData) :
    RoundId → Option EntryResult :=
  rounds.foldl
    (fun acc round =>
      let kills := (events.filter (fun e => e.roundID = round.id)).filter isKillWithVictim
      match kills with
      | [] => acc
      | firstK :: restKills =>
        let fk := minKillLoop firstK restKills
        match fk.victimID with
        | none => acc  -- unreachable: `kills` only holds events with a victim
        | some v =>
          fun rid =>
            if rid = round.id then
              some { roundID := round.id, entryKillerID := fk.playerID,
                     entryVictimID := v, timestampMS := fk.timestampMS }
            else acc rid)
    (fun _ => none)

/-- `RoundPlayerStateData` (builder.go): the per-round player universe. -/
structure RoundPlayerStateData where
  id : Nat
  roundID : RoundId
  playerID : PlayerId
  score : Option Int := none
  deriving Repr, DecidableEq

/-- `CombatStats` (model.go), restricted to the fields read by the verified
claims (the headshot/bodyshot/legshot kill and hit counters are never read
by any claim and are omitted). -/
structure CombatStats where
  kills : Int := 0
  deaths : Int := 0
  assists : Int := 0
  damageGiven : Int := 0
  damageTaken : Int := 0
  suicides : Nat := 0
  teamKills : Nat := 0
  killedByTeammate : Nat := 0
  killedBySpike : Nat := 0
  deriving Repr, DecidableEq

/-- One event step of `computeRoundCombatStats` (builder.go lines 668-746):
classify a kill as spike death, suicide, teamkill or normal kill, and
accumulate damage events. -/
def combatStatsStep (playerTeam : PlayerId → Option TeamId)
    (stats : PlayerId → CombatStats) (e : RoundEventData) :
    PlayerId → CombatStats :=
  let upd := fun (p : PlayerId) (f : CombatStats → CombatStats)
      (s : PlayerId → CombatStats) (q : PlayerId) => if q = p then f (s q) else s q
  if e.eventType = "kill" then
    match e.victimID with
    | none =>
      -- normal-kill branch with a nil victim: only the killer is credited
      upd e.playerID (fun c => { c with kills := c.kills + 1 }) stats
    | some victimID =>
      let isSelfKill := e.playerID = victimID
      let isSpikeDeath := isSelfKill ∧ e.weapon = some "Spike"
      let isTeamkill := ¬ isSelfKill ∧ sameTeam playerTeam e.playerID victimID
      if isSpikeDeath then
        upd victimID
          (fun c => { c with deaths := c.deaths + 1, killedBySpike := c.killedBySpike + 1 }) stats
      else if isSelfKill then
        upd victimID
          (fun c => { c with deaths := c.deaths + 1, suicides := c.suicides + 1 }) stats
      else if isTeamkill then
        upd victimID
          (fun c => { c with deaths := c.deaths + 1, killedByTeammate := c.killedByTeammate + 1 })
          (upd e.playerID (fun c => { c with teamKills := c.teamKills + 1 }) stats)
      else
        upd victimID (fun c => { c with deaths := c.deaths + 1 })
          (upd e.playerID (fun c => { c with kills := c.kills + 1 }) stats)
  else if e.eventType = "damage" then
    let stats1 := upd e.playerID
      (fun c => { c with damageGiven := c.damageGiven + e.damageGiven.getD 0 }) stats
    match e.victimID, e.damageGiven with
    | some victimID, some dmg =>
      upd victimID (fun c => { c with damageTaken := c.damageTaken + dmg }) stats1
    | _, _ => stats1
  else stats

/-- `computeRoundCombatStats` (builder.go lines 658-750): fold the round's
events in order; a player absent from the map reads as zero stats. -/
def computeRoundCombatStats (events : List RoundEventData)
    (playerTeam : PlayerId → Option TeamId) : PlayerId → CombatStats :=
  events.foldl (combatStatsStep playerTeam) (fun _ => {})

/-- `RoundPlayerStatsRow` (model.go), restricted to the fields read by the
verified claims (identifiers, loadout, agent, rating, hit counters,
headshot percentage, clutch link and timestamps are omitted). -/
structure RoundPlayerStatsRow where
  roundID : RoundId
  playerID : PlayerId
  cs : ℚ
  kills : Int
  deaths : Int
  assists : Int
  damageGiven : Int
  damageTaken : Int
  survived : Bool
  firstKill : Bool
  firstDeath : Bool
  tradeKill : Nat
  tradedDeath : Nat
  deriving Repr, DecidableEq

/-- `BuildRoundPlayerStats` (builder.go lines 478-599): one row per
round-player-state, in round order then state order.  Combat scores become
`ℚ`; clutch ids and loadouts are claim-irrelevant and omitted. -/
def BuildRoundPlayerStats (rounds : List RoundData) (events : List RoundEventData)
    (states : List RoundPlayerStateData)
    (trades : RoundId → PlayerId → TradeResult)
    (entries : RoundId → Option EntryResult)
    (playerTeam : PlayerId → Option TeamId) : List RoundPlayerStatsRow :=
  rounds.foldr
    (fun round acc =>
      let roundEvents := events.filter (fun e => e.roundID = round.id)
      let combatStats := computeRoundCombatStats roundEvents playerTeam
      ((states.filter (fun s => s.roundID = round.id)).map (fun rps =>
        let stats := combatStats rps.playerID
        let tr := trades round.id rps.playerID
        let firstKill : Bool := match entries round.id with
          | some entry => entry.entryKillerID == rps.playerID
          | none => false
        let firstDeath : Bool := match entries round.id with
          | some entry => entry.entryVictimID == rps.playerID
          | none => false
        { roundID := round.id
          playerID := rps.playerID
          cs := match rps.score with | some s => (s : ℚ) | none => 0
          kills := stats.kills
          deaths := stats.deaths
          assists := stats.assists
          damageGiven := stats.damageGiven
          damageTaken := stats.damageTaken
          survived := stats.deaths == 0
          firstKill := firstKill
          firstDeath := firstDeath
          tradeKill := tr.tradeKills
          tradedDeath := tr.tradedDeaths })) ++ acc)
    []

/-- C10: entry detection excludes neither self-kills nor teamkills.  In a
round whose single event is a spike self-death by player 5 at t=1000 (the
round's earliest and only kill), the entry pair is (5, 5), and player 5's
round-player row carries both first_kill = true and first_death = true. -/
theorem C10_self_kill_entry_at_concrete_input :
    let playerTeam : PlayerId → Option TeamId :=
      fun p => if p = 5 then some 1 else none
    let round : RoundData := { id := 1, roundNumber := 0 }
    let spikeDeath : RoundEventData :=
      { roundID := 1, timestampMS := 1000, eventType := "kill",
        playerID := 5, victimID := some 5, weapon := some "Spike" }
    let state : RoundPlayerStateData := { id := 100, roundID := 1, playerID := 5 }
    let entries := ComputeEntries [round] [spikeDeath]
    let trades := ComputeTrades [spikeDeath] playerTeam
    let rows := BuildRoundPlayerStats [round] [spikeDeath] [state] trades entries playerTeam
    (∃ e, entries 1 = some e ∧ e.entryKillerID = e.entryVictimID) ∧
    rows.length = 1 ∧
    ∀ row ∈ rows, row.firstKill = true ∧ row.firstDeath = true := by
  refine ⟨⟨{ roundID := 1, entryKillerID := 5, entryVictimID := 5, timestampMS := 1000 },
    by decide, rfl⟩, by decide, ?_⟩
  decide

/-! ## Multi-kill detection (`computeRoundMultiKills`) -/

/-- `MultiKillWindowMS` (multi-kill source file). -/
def MultiKillWindowMS : Int := 5000

/-- `MultiKillResult` (multi-kill source file): per-(round, player) streak
counters. -/
structure MultiKillResult where
  multiKills : Nat := 0
  doubleKills : Nat := 0
  tripleKills : Nat := 0
  quadraKills : Nat := 0
  pentaKills : Nat := 0
  deriving Repr, DecidableEq

instance : Add MultiKillResult :=
  ⟨fun a b =>
    { multiKills := a.multiKills + b.multiKills
      doubleKills := a.doubleKills + b.doubleKills
      tripleKills := a.tripleKills + b.tripleKills
      quadraKills := a.quadraKills + b.quadraKills
      pentaKills := a.pentaKills + b.pentaKills }⟩

theorem mkAdd_def (a b : MultiKillResult) :
    a + b = { multiKills := a.multiKills + b.multiKills
              doubleKills := a.doubleKills + b.doubleKills
              tripleKills := a.tripleKills + b.tripleKills
              quadraKills := a.quadraKills + b.quadraKills
              pentaKills := a.pentaKills + b.pentaKills } := rfl

theorem mkAdd_zero (a : MultiKillResult) : a + {} = a := rfl

theorem mkAdd_assoc (a b c : MultiKillResult) : a + b + c = a + (b + c) := by
  simp [mkAdd_def, Nat.add_assoc]

/-- The "streak ended" bookkeeping of `computeRoundMultiKills` (multi-kill
source file lines 102-119): a streak of length ≥ 2 bumps `multiKills` and
exactly one of the double/triple/quadra/penta counters (5+ counts as
penta). -/
def recordStreak (streakLength : Nat) (r : MultiKillResult) : MultiKillResult :=
  if streakLength ≥ 2 then
    let r := { r with multiKills := r.multiKills + 1 }
    match streakLength with
    | 2 => { r with doubleKills := r.doubleKills + 1 }
    | 3 => { r with tripleKills := r.tripleKills + 1 }
    | 4 => { r with quadraKills := r.quadraKills + 1 }
    | _ => { r with pentaKills := r.pentaKills + 1 }
  else r

/-- The `for i := 1; i <= len(playerKills); i++` streak loop of
`computeRoundMultiKills` (lines 93-120), with the loop state passed
explicitly: `prev` is the previous kill's timestamp and `curLen` the length
`i - streakStart` of the running streak. -/
def streakLoop (prev : Int) (curLen : Nat) (r : MultiKillResult) :
    List Int → MultiKillResult
  | [] => recordStreak curLen r
  | t :: rest =>
    if t - prev ≤ MultiKillWindowMS then streakLoop t (curLen + 1) r rest
    else streakLoop t 1 (recordStreak curLen r) rest

/-- The per-player body of `computeRoundMultiKills`: a player with fewer
than two kills keeps zero counters (the `len(playerKills) >= 2` guard). -/
def playerRoundMultiKills : List Int → MultiKillResult
  | [] => {}
  | [_] => {}
  | t :: rest => streakLoop t 1 {} rest

/-- The kill filter of `computeRoundMultiKills` (lines 48-69): kill events
with a victim, excluding self-kills and teamkills. -/
def isMultiKillCandidate (playerTeam : PlayerId → Option TeamId)
    (e : RoundEventData) : Bool :=
  e.eventType = "kill" &&
    match e.victimID with
    | none => false
    | some victimID =>
      !(e.playerID == victimID) && !(sameTeam playerTeam e.playerID victimID)

/-- The sorted timestamp sequence of one player's candidate kills inside
one round's events: the source sorts the kill events by `TimestampMS`
(`sort.Slice`, line 87) and only their timestamps feed the streak loop, so
the sorted timestamp list is determined even though the sort itself is
unstable. -/
def playerKillTimes (events : List RoundEventData)
    (playerTeam : PlayerId → Option TeamId) (p : PlayerId) : List Int :=
  (((events.filter (isMultiKillCandidate playerTeam)).filter
      (fun e => e.playerID = p)).map (fun e => e.timestampMS)).mergeSort
    (fun a b => a ≤ b)

/-- `computeRoundMultiKills` (multi-kill source file lines 45-129): only
players with at least one completed streak are stored in the result map. -/
def computeRoundMultiKills (events : List RoundEventData)
    (playerTeam : PlayerId → Option TeamId) :
    PlayerId → Option MultiKillResult :=
  fun p =>
    let r := playerRoundMultiKills (playerKillTimes events playerTeam p)
    if r.multiKills > 0 then some r else none

/-- `ComputeMultiKills` (multi-kill source file lines 27-42): group events
by round and run the per-round computation. -/
def ComputeMultiKills (events : List RoundEventData)
    (playerTeam : PlayerId → Option TeamId) :
    RoundId → PlayerId → Option MultiKillResult :=
  fun roundID =>
    computeRoundMultiKills (events.filter (fun e => e.roundID = roundID)) playerTeam

/-- Modelled from the spec's words for C6: split a timestamp sequence into
maximal streaks in which each adjacent pair is at most `MultiKillWindowMS`
apart; a gap greater than the window starts a new streak. -/
def specStreaks : List Int → List (List Int)
  | [] => []
  | [x] => [[x]]
  | x :: y :: rest =>
    if y - x ≤ MultiKillWindowMS then
      match specStreaks (y :: rest) with
      | [] => [[x]]
      | s :: ss => (x :: s) :: ss
    else [x] :: specStreaks (y :: rest)

/-- Modelled from the spec's words for C6: count the streaks of each
length class. -/
def countStreaks (ss : List (List Int)) : MultiKillResult :=
  { multiKills := ss.countP (fun s => s.length ≥ 2)
    doubleKills := ss.countP (fun s => s.length = 2)
    tripleKills := ss.countP (fun s => s.length = 3)
    quadraKills := ss.countP (fun s => s.length = 4)
    pentaKills := ss.countP (fun s => s.length ≥ 5) }

theorem specStreaks_ne_nil (x : Int) (xs : List Int) : specStreaks (x :: xs) ≠ [] := by
  match xs with
  | [] => simp [specStreaks]
  | y :: rest =>
    simp only [specStreaks]
    split
    · split <;> simp
    · simp

theorem specStreaks_cons_cons (x y : Int) (rest : List Int) :
    specStreaks (x :: y :: rest) =
      if y - x ≤ MultiKillWindowMS then
        match specStreaks (y :: rest) with
        | [] => [[x]]
        | s :: ss => (x :: s) :: ss
      else [x] :: specStreaks (y :: rest) := rfl

theorem recordStreak_add (n : Nat) (r : MultiKillResult) :
    recordStreak n r = r + recordStreak n {} := by
  match n with
  | 0 => rfl
  | 1 => rfl
  | 2 => rfl
  | 3 => rfl
  | 4 => rfl
  | m + 5 => rfl

theorem recordStreak_lt_two (n : Nat) (h : n < 2) :
    recordStreak n ({} : MultiKillResult) = {} := by
  match n, h with
  | 0, _ => rfl
  | 1, _ => rfl

theorem recordStreak_multi (n : Nat) (h : 2 ≤ n) :
    (recordStreak n ({} : MultiKillResult)).multiKills = 1 := by
  match n, h with
  | 2, _ => rfl
  | 3, _ => rfl
  | 4, _ => rfl
  | m + 5, _ => rfl

theorem streakLoop_add (xs : List Int) (prev : Int) (curLen : Nat) (r : MultiKillResult) :
    streakLoop prev curLen r xs = r + streakLoop prev curLen {} xs := by
  induction xs generalizing prev curLen r with
  | nil => exact recordStreak_add curLen r
  | cons t rest ih =>
    show (if t - prev ≤ MultiKillWindowMS then streakLoop t (curLen + 1) r rest
          else streakLoop t 1 (recordStreak curLen r) rest) =
      r + (if t - prev ≤ MultiKillWindowMS then streakLoop t (curLen + 1) {} rest
          else streakLoop t 1 (recordStreak curLen {}) rest)
    by_cases h : t - prev ≤ MultiKillWindowMS
    · rw [if_pos h, if_pos h, ih]
    · rw [if_neg h, if_neg h, ih t 1 (recordStreak curLen r), recordStreak_add curLen r,
        mkAdd_assoc, ← ih t 1 (recordStreak curLen {})]

theorem countStreaks_nil : countStreaks [] = {} := rfl

theorem countStreaks_cons (s : List Int) (ss : List (List Int)) :
    countStreaks (s :: ss) = recordStreak s.length {} + countStreaks ss := by
  match h : s.length with
  | 0 => simp [countStreaks, recordStreak, List.countP_cons, h, mkAdd_def]
  | 1 => simp [countStreaks, recordStreak, List.countP_cons, h, mkAdd_def]
  | 2 => simp +arith [countStreaks, recordStreak, List.countP_cons, h, mkAdd_def]
  | 3 => simp +arith [countStreaks, recordStreak, List.countP_cons, h, mkAdd_def]
  | 4 => simp +arith [countStreaks, recordStreak, List.countP_cons, h, mkAdd_def]
  | m + 5 =>
    simp +arith [countStreaks, recordStreak, List.countP_cons, h, mkAdd_def]

/-- Counting helper for the streak-loop correspondence: like `countStreaks`
but with the first streak's length enlarged by `extra` elements already
consumed by the loop. -/
def countStreaksExtra (extra : Nat) : List (List Int) → MultiKillResult
  | [] => {}
  | s :: ss => recordStreak (s.length + extra) {} + countStreaks ss

theorem countStreaksExtra_zero (ss : List (List Int)) :
    countStreaksExtra 0 ss = countStreaks ss := by
  match ss with
  | [] => rfl
  | s :: rest => rw [countStreaksExtra, Nat.add_zero, ← countStreaks_cons]

theorem streakLoop_eq_countStreaks (xs : List Int) (prev : Int) (extra : Nat) :
    streakLoop prev (extra + 1) {} xs = countStreaksExtra extra (specStreaks (prev :: xs)) := by
  induction xs generalizing prev extra with
  | nil =>
    show recordStreak (extra + 1) {} = countStreaksExtra extra [[prev]]
    show recordStreak (extra + 1) {} = recordStreak (1 + extra) {} + countStreaks []
    rw [countStreaks_nil, mkAdd_zero, Nat.add_comm]
  | cons t rest ih =>
    match hss : specStreaks (t :: rest) with
    | [] => exact absurd hss (specStreaks_ne_nil t rest)
    | s :: ss =>
      by_cases h : t - prev ≤ MultiKillWindowMS
      · have hps : specStreaks (prev :: t :: rest) = (prev :: s) :: ss := by
          rw [specStreaks_cons_cons, if_pos h, hss]
        have hL : streakLoop prev (extra + 1) {} (t :: rest)
            = streakLoop t (extra + 1 + 1) {} rest := by
          show (if t - prev ≤ MultiKillWindowMS then streakLoop t (extra + 1 + 1) {} rest
                else streakLoop t 1 (recordStreak (extra + 1) {}) rest) = _
          rw [if_pos h]
        rw [hL, ih t (extra + 1), hss, hps]
        show recordStreak (s.length + (extra + 1)) {} + countStreaks ss
          = recordStreak (s.length + 1 + extra) {} + countStreaks ss
        have harith : s.length + (extra + 1) = s.length + 1 + extra := by omega
        rw [harith]
      · have hps : specStreaks (prev :: t :: rest) = [prev] :: specStreaks (t :: rest) := by
          rw [specStreaks_cons_cons, if_neg h]
        have hL : streakLoop prev (extra + 1) {} (t :: rest)
            = streakLoop t 1 (recordStreak (extra + 1) {}) rest := by
          show (if t - prev ≤ MultiKillWindowMS then streakLoop t (extra + 1 + 1) {} rest
                else streakLoop t 1 (recordStreak (extra + 1) {}) rest) = _
          rw [if_neg h]
        rw [hL, streakLoop_add, ih t 0, countStreaksExtra_zero, hps]
        show recordStreak (extra + 1) {} + countStreaks (specStreaks (t :: rest))
          = recordStreak (1 + extra) {} + countStreaks (specStreaks (t :: rest))
        rw [Nat.add_comm extra 1]

theorem playerRoundMultiKills_eq (ts : List Int) :
    playerRoundMultiKills ts = countStreaks (specStreaks ts) := by
  match ts with
  | [] => rfl
  | [x] => rfl
  | x :: y :: rest =>
    show streakLoop x 1 {} (y :: rest) = _
    have h := streakLoop_eq_countStreaks (y :: rest) x 0
    rw [show (0 : Nat) + 1 = 1 from rfl, countStreaksExtra_zero] at h
    rw [h]

theorem countStreaks_eq_zero_of_multi_zero (ss : List (List Int))
    (h : (countStreaks ss).multiKills = 0) : countStreaks ss = {} := by
  induction ss with
  | nil => rfl
  | cons s rest ih =>
    rw [countStreaks_cons] at h ⊢
    by_cases h2 : 2 ≤ s.length
    · exfalso
      have hm := recordStreak_multi s.length h2
      simp [mkAdd_def, hm] at h
    · rw [recordStreak_lt_two s.length (by omega)] at h ⊢
      have hr := ih (by simpa [mkAdd_def] using h)
      rw [hr]
      rfl

/-- C6: for every round and player, the multi-kill counters equal the
counts over the maximal-streak decomposition of the player's sorted
cross-team, non-self kill timestamps: streaks of length exactly 2, 3 and 4
feed double/triple/quadra, length ≥ 5 feeds penta, and `multiKills` counts
the streaks of length ≥ 2 (a gap above 5000 ms starts a new streak, by
definition of the decomposition). -/
theorem C6_multikill_streak_counts (events : List RoundEventData)
    (playerTeam : PlayerId → Option TeamId) (roundID : RoundId) (p : PlayerId) :
    ((ComputeMultiKills events playerTeam roundID p).getD {}) =
      countStreaks (specStreaks
        (playerKillTimes (events.filter (fun e => e.roundID = roundID)) playerTeam p)) := by
  simp only [ComputeMultiKills, computeRoundMultiKills]
  rw [playerRoundMultiKills_eq]
  by_cases h : (countStreaks (specStreaks
      (playerKillTimes (events.filter (fun e => e.roundID = roundID)) playerTeam p))).multiKills > 0
  · simp [h]
  · have h0 : (countStreaks (specStreaks
        (playerKillTimes (events.filter (fun e => e.roundID = roundID)) playerTeam p))).multiKills = 0 := by
      omega
    rw [countStreaks_eq_zero_of_multi_zero _ h0]
    simp

/-! ## Clutch detection (clutches.go) -/

/-- `ClutchState` (model.go): tentative clutch bookkeeping. -/
structure ClutchState where
  candidate : PlayerId
  aloneSince : Int
  opponentsAtStart : Nat
  aliveOpponentIDs : List PlayerId
  side : String
  situation : String
  confirmed : Bool
  deriving Repr, DecidableEq

/-- `ClutchResult` (model.go). -/
structure ClutchResult where
  roundID : RoundId
  clutcherID : PlayerId
  opponentIDs : List PlayerId
  type : Nat
  won : Bool
  side : String
  situation : String
  clutchStartTimeMS : Int
  clutchEndTimeMS : Int
  deriving Repr, DecidableEq

/-- The `teamPlayers` map (team id → roster), as an association list in
insertion order. -/
abbrev TeamPlayers := List (TeamId × List PlayerId)

/-- Roster lookup; a missing team reads as the empty roster, as a missing
key does in Go. -/
def lookupTeamPlayers (teamPlayers : TeamPlayers) (t : TeamId) : List PlayerId :=
  match teamPlayers.find? (fun tp => tp.1 == t) with
  | some tp => tp.2
  | none => []

/-- `GetOtherTeamID` (round_player_stats.go): the first map key different
from `teamID`, or `uuid.Nil` (embedded as 0).  Go's map iteration order is
unspecified; the association-list order determinizes it (with the usual
two teams the answer is unique). -/
def GetOtherTeamID (teamID : TeamId) (teamPlayers : TeamPlayers) : TeamId :=
  match teamPlayers.find? (fun tp => tp.1 != teamID) with
  | some tp => tp.1
  | none => 0

/-- `countAlive` (clutches.go). -/
def countAlive (playerIDs : List PlayerId) (alive : PlayerId → Bool) : Nat :=
  playerIDs.countP alive

/-- `findSurvivor` (clutches.go): the first alive player of the roster;
the source's `uuid.Nil` sentinel becomes `none`. -/
def findSurvivor (playerIDs : List PlayerId) (alive : PlayerId → Bool) :
    Option PlayerId :=
  playerIDs.find? alive

/-- `getAlivePlayerIDs` (clutches.go). -/
def getAlivePlayerIDs (playerIDs : List PlayerId) (alive : PlayerId → Bool) :
    List PlayerId :=
  playerIDs.filter alive

/-- `determineSituation` (clutches.go lines 192-198): "post-plant" iff the
plant time is set and strictly below the current time. -/
def determineSituation (round : RoundData) (currentTimeMS : Int) : String :=
  match round.plantTimeMS with
  | some plantTime => if currentTimeMS > plantTime then "post-plant" else "pre-plant"
  | none => "pre-plant"

/-- The mutable state of `detectClutchInRound`'s kill loop. -/
structure DetectState where
  alive : PlayerId → Bool
  clutchStates : List (TeamId × ClutchState)
  confirmedClutch : Option ClutchState
  clutcherTeamID : TeamId
  lastTimestamp : Int

/-- `clutchStates[victimTeam] = &ClutchState{…}`: replace an existing entry
in place or append a new one. -/
def setClutchState (l : List (TeamId × ClutchState)) (t : TeamId) (st : ClutchState) :
    List (TeamId × ClutchState) :=
  match l with
  | [] => [(t, st)]
  | (t', s') :: rest =>
    if t' = t then (t, st) :: rest else (t', s') :: setClutchState rest t st

/-- The confirmation loop of `detectClutchInRound` (clutches.go lines
98-108): every tentative state whose elapsed time reached the delay is
marked confirmed, and `confirmedClutch`/`clutcherTeamID` end up holding the
last state confirmed in iteration order (Go's map order, determinized to
the association-list order). -/
def confirmStates (killTime : Int) (l : List (TeamId × ClutchState))
    (confirmedClutch : Option ClutchState) (clutcherTeamID : TeamId) :
    List (TeamId × ClutchState) × Option ClutchState × TeamId :=
  match l with
  | [] => ([], confirmedClutch, clutcherTeamID)
  | (teamID, st) :: rest =>
    if ¬ st.confirmed ∧ killTime - st.aloneSince ≥ ClutchIdentificationDelayMS then
      let st' := { st with confirmed := true }
      let r := confirmStates killTime rest (some st') teamID
      ((teamID, st') :: r.1, r.2)
    else
      let r := confirmStates killTime rest confirmedClutch clutcherTeamID
      ((teamID, st) :: r.1, r.2)

/-- The invalidation loop of `detectClutchInRound` (clutches.go lines
110-116): drop tentative states whose candidate just died. -/
def invalidateStates (victimID : PlayerId) (l : List (TeamId × ClutchState)) :
    List (TeamId × ClutchState) :=
  l.filter (fun ts => ts.2.confirmed || ts.2.candidate != victimID)

/-- Steps 5-6 of the kill loop: confirm, then invalidate. -/
def clutchConfirmInvalidate (state : DetectState) (killTime : Int)
    (victimID : PlayerId) : DetectState :=
  let r := confirmStates killTime state.clutchStates state.confirmedClutch state.clutcherTeamID
  { state with
    clutchStates := invalidateStates victimID r.1
    confirmedClutch := r.2.1
    clutcherTeamID := r.2.2 }

/-- One iteration of the kill loop of `detectClutchInRound` (clutches.go
lines 53-117).  A victim without a team binding is skipped entirely
(`continue`), as is the rest of the body when the victim's team has exactly
one survivor but `findSurvivor` comes back empty. -/
def clutchKillStep (round : RoundData) (playerTeam : PlayerId → Option TeamId)
    (teamPlayers : TeamPlayers) (teamTagMap : TeamId → Option String)
    (state : DetectState) (kill : RoundEventData) : DetectState :=
  match kill.victimID with
  | none => state
  | some victimID =>
    match playerTeam victimID with
    | none => state
    | some victimTeam =>
      let alive := fun p => if p = victimID then false else state.alive p
      let lastTimestamp := kill.timestampMS
      let aliveCount := countAlive (lookupTeamPlayers teamPlayers victimTeam) alive
      if aliveCount = 1 then
        match findSurvivor (lookupTeamPlayers teamPlayers victimTeam) alive with
        | none => { state with alive := alive, lastTimestamp := lastTimestamp }
        | some survivor =>
          let opponentTeam := GetOtherTeamID victimTeam teamPlayers
          let opponentsAlive := countAlive (lookupTeamPlayers teamPlayers opponentTeam) alive
          let clutchStates :=
            if 0 < opponentsAlive ∧ opponentsAlive ≤ 5 then
              setClutchState state.clutchStates victimTeam
                { candidate := survivor
                  aloneSince := kill.timestampMS
                  opponentsAtStart := opponentsAlive
                  aliveOpponentIDs :=
                    getAlivePlayerIDs (lookupTeamPlayers teamPlayers opponentTeam) alive
                  side := DetermineSide round.roundNumber victimTeam teamTagMap
                  situation := determineSituation round kill.timestampMS
                  confirmed := false }
            else state.clutchStates
          clutchConfirmInvalidate
            { state with
              alive := alive
              lastTimestamp := lastTimestamp
              clutchStates := clutchStates }
            kill.timestampMS victimID
      else
        clutchConfirmInvalidate
          { state with
            alive := alive
            lastTimestamp := lastTimestamp }
          kill.timestampMS victimID

/-- The end-of-round confirmation loop of `detectClutchInRound` (clutches.go
lines 119-134), run only when no clutch was confirmed during the kills. -/
def endOfRoundConfirm (alive : PlayerId → Bool) (lastTimestamp : Int)
    (l : List (TeamId × ClutchState)) (confirmedClutch : Option ClutchState)
    (clutcherTeamID : TeamId) : Option ClutchState × TeamId :=
  match l with
  | [] => (confirmedClutch, clutcherTeamID)
  | (teamID, st) :: rest =>
    if ¬ st.confirmed ∧ alive st.candidate ∧
        lastTimestamp + 1000 - st.aloneSince ≥ ClutchIdentificationDelayMS then
      endOfRoundConfirm alive lastTimestamp rest (some { st with confirmed := true }) teamID
    else
      endOfRoundConfirm alive lastTimestamp rest confirmedClutch clutcherTeamID

/-- `detectClutchInRound` (clutches.go lines 29-158). -/
def detectClutchInRound (round : RoundData) (events : List RoundEventData)
    (playerTeam : PlayerId → Option TeamId) (teamPlayers : TeamPlayers)
    (teamTagMap : TeamId → Option String) : Option ClutchResult :=
  let kills := events.filter isKillWithVictim
  let init : DetectState :=
    { alive := fun p => teamPlayers.any (fun tp => tp.2.contains p)
      clutchStates := []
      confirmedClutch := none
      clutcherTeamID := 0
      lastTimestamp := 0 }
  let final := kills.foldl (clutchKillStep round playerTeam teamPlayers teamTagMap) init
  let outcome : Option ClutchState × TeamId :=
    match final.confirmedClutch with
    | some c => (some c, final.clutcherTeamID)
    | none =>
      endOfRoundConfirm final.alive final.lastTimestamp final.clutchStates none
        final.clutcherTeamID
  match outcome with
  | (none, _) => none
  | (some c, clutcherTeamID) =>
    some { roundID := round.id
           clutcherID := c.candidate
           opponentIDs := c.aliveOpponentIDs
           type := c.opponentsAtStart
           won := round.winnerTeamID == some clutcherTeamID
           side := c.side
           situation := c.situation
           clutchStartTimeMS := c.aloneSince
           clutchEndTimeMS := final.lastTimestamp }

/-- `ComputeClutches` (clutches.go lines 10-27): at most one result per
entry of `rounds`, in round order. -/
def ComputeClutches (rounds : List RoundData) (events : List RoundEventData)
    (playerTeam : PlayerId → Option TeamId) (teamPlayers : TeamPlayers)
    (teamTagMap : TeamId → Option String) : List ClutchResult :=
  rounds.foldr
    (fun round acc =>
      match detectClutchInRound round (events.filter (fun e => e.roundID = round.id))
          playerTeam teamPlayers teamTagMap with
      | some c => c :: acc
      | none => acc)
    []

/-- `ClutchRow` (model.go): one participant row of the `clutches` table.
The random row id and `created_at` are omitted; the source's nullable
pointer fields are always set by `buildClutchRows` and are embedded as
plain values. -/
structure ClutchRow where
  roundID : RoundId
  playerID : PlayerId
  side : String
  won : Bool
  isClutcher : Bool
  situation : String
  type : Nat
  clutchStartTimeMS : Int
  clutchEndTimeMS : Int
  deriving Repr, DecidableEq

/-- The `is_clutcher = true` row of `buildClutchRows` (builder.go lines
146-160). -/
def clutcherRowOf (cr : ClutchResult) : ClutchRow :=
  { roundID := cr.roundID, playerID := cr.clutcherID, side := cr.side,
    won := cr.won, isClutcher := true, situation := cr.situation,
    type := cr.type, clutchStartTimeMS := cr.clutchStartTimeMS,
    clutchEndTimeMS := cr.clutchEndTimeMS }

/-- One opponent row of `buildClutchRows` (builder.go lines 162-181):
inverted side and inverted `won`. -/
def opponentRowOf (cr : ClutchResult) (opponentID : PlayerId) : ClutchRow :=
  { roundID := cr.roundID, playerID := opponentID,
    side := getOppositeSide cr.side, won := !cr.won, isClutcher := false,
    situation := cr.situation, type := cr.type,
    clutchStartTimeMS := cr.clutchStartTimeMS,
    clutchEndTimeMS := cr.clutchEndTimeMS }

/-- `buildClutchRows` (builder.go lines 135-185): one `is_clutcher = true`
row for the clutcher and one row per opponent with the opposite side and
inverted `won`.  (The source's `playerTeam`, `teamPlayers` and `now`
parameters are unused apart from the omitted `created_at` column.) -/
def buildClutchRows (clutchResults : List ClutchResult) : List ClutchRow :=
  clutchResults.foldr
    (fun cr acc => clutcherRowOf cr :: (cr.opponentIDs.map (opponentRowOf cr) ++ acc))
    []

/-- C7 fails on the code at the boundary: with the spike planted at
t = 100 and the clutch opening at exactly t = 100, the claim calls for
"post-plant" (plant time set and ≤ current time) but `determineSituation`
uses a strict comparison and yields "pre-plant". -/
theorem C7_plant_boundary_counterexample :
    (RoundData.plantTimeMS { id := 1, roundNumber := 0, plantTimeMS := some 100 }
      = some 100) ∧
    (100 : Int) ≤ 100 ∧
    determineSituation { id := 1, roundNumber := 0, plantTimeMS := some 100 } 100
      ≠ "post-plant" := by
  refine ⟨rfl, by norm_num, by decide⟩

/-- C7 amended: the situation is "post-plant" iff the round's plant time is
set and *strictly* below the clutch-opening time, and "pre-plant"
otherwise; in particular a clutch opening exactly at the plant time is
"pre-plant", and without a plant time the situation is always
"pre-plant". -/
theorem C7_situation_strictly_after_plant (round : RoundData) (t : Int) :
    (determineSituation round t = "post-plant" ↔
      ∃ p, round.plantTimeMS = some p ∧ p < t) ∧
    (determineSituation round t = "pre-plant" ↔
      ¬ ∃ p, round.plantTimeMS = some p ∧ p < t) := by
  rcases hp : round.plantTimeMS with _ | p
  · simp [determineSituation, hp]
  · by_cases h : t > p
    · simp [determineSituation, hp, if_pos h]
      omega
    · simp [determineSituation, hp, if_neg h]
      omega

/-- A side string is one of the two legal values. -/
def ValidSide (s : String) : Prop := s = "Attack" ∨ s = "Defense"

theorem determineSideByTag_valid (n : Int) (tag : String) :
    ValidSide (DetermineSideByTag n tag) := by
  unfold ValidSide DetermineSideByTag
  by_cases ht : tag = "Red" ∨ tag = "RED" <;>
    by_cases h1 : n < 12 <;>
    by_cases h2 : n < 24 <;>
    by_cases h3 : ((n - 24).tdiv 2).tmod 2 = 0 <;>
    by_cases h4 : (n - 24).tmod 2 = 0 <;>
    simp [ht, h1, h2, h3, h4]

theorem determineSide_valid (n : Int) (t : TeamId) (m : TeamId → Option String) :
    ValidSide (DetermineSide n t m) := by
  unfold DetermineSide
  match m t with
  | none => left; rfl
  | some tag => exact determineSideByTag_valid n tag

/-- Invariant: every tentative state carries a legal side. -/
def StatesOK (l : List (TeamId × ClutchState)) : Prop :=
  ∀ ts ∈ l, ValidSide ts.2.side

/-- Invariant: a confirmed state carries a legal side. -/
def ConfirmedOK (o : Option ClutchState) : Prop :=
  ∀ c, o = some c → ValidSide c.side

theorem statesOK_nil : StatesOK [] := by intro ts h; cases h

theorem setClutchState_ok {l : List (TeamId × ClutchState)} {t : TeamId}
    {st : ClutchState} (hl : StatesOK l) (hst : ValidSide st.side) :
    StatesOK (setClutchState l t st) := by
  induction l with
  | nil =>
    intro ts hts
    simp only [setClutchState, List.mem_singleton] at hts
    subst hts; exact hst
  | cons hd tl ih =>
    obtain ⟨t', s'⟩ := hd
    intro ts hts
    simp only [setClutchState] at hts
    split at hts
    · rcases List.mem_cons.mp hts with rfl | h
      · exact hst
      · exact hl _ (List.mem_cons_of_mem _ h)
    · rcases List.mem_cons.mp hts with rfl | h
      · exact hl _ (List.mem_cons_self _ _)
      · exact ih (fun x hx => hl x (List.mem_cons_of_mem _ hx)) _ h

theorem confirmStates_ok (killTime : Int) (l : List (TeamId × ClutchState))
    (conf : Option ClutchState) (tid : TeamId)
    (hl : StatesOK l) (hc : ConfirmedOK conf) :
    StatesOK (confirmStates killTime l conf tid).1 ∧
      ConfirmedOK (confirmStates killTime l conf tid).2.1 := by
  induction l generalizing conf tid with
  | nil => exact ⟨statesOK_nil, hc⟩
  | cons hd tl ih =>
    obtain ⟨teamID, st⟩ := hd
    have hst : ValidSide st.side := hl _ (List.mem_cons_self _ _)
    have htl : StatesOK tl := fun x hx => hl x (List.mem_cons_of_mem _ hx)
    simp only [confirmStates]
    split
    · have hc' : ConfirmedOK (some { st with confirmed := true }) := by
        intro c hcc
        cases hcc
        exact hst
      obtain ⟨h1, h2⟩ := ih _ _ htl hc'
      refine ⟨?_, h2⟩
      intro ts hts
      rcases List.mem_cons.mp hts with rfl | h
      · exact hst
      · exact h1 _ h
    · obtain ⟨h1, h2⟩ := ih _ _ htl hc
      refine ⟨?_, h2⟩
      intro ts hts
      rcases List.mem_cons.mp hts with rfl | h
      · exact hst
      · exact h1 _ h

theorem invalidateStates_ok {v : PlayerId} {l : List (TeamId × ClutchState)}
    (hl : StatesOK l) : StatesOK (invalidateStates v l) :=
  fun ts hts => hl ts (List.mem_of_mem_filter hts)

theorem clutchConfirmInvalidate_ok {state : DetectState} {killTime : Int}
    {v : PlayerId} (h1 : StatesOK state.clutchStates)
    (h2 : ConfirmedOK state.confirmedClutch) :
    StatesOK (clutchConfirmInvalidate state killTime v).clutchStates ∧
      ConfirmedOK (clutchConfirmInvalidate state killTime v).confirmedClutch := by
  obtain ⟨ha, hb⟩ := confirmStates_ok killTime state.clutchStates
    state.confirmedClutch state.clutcherTeamID h1 h2
  exact ⟨invalidateStates_ok ha, hb⟩

theorem clutchKillStep_ok (round : RoundData) (playerTeam : PlayerId → Option TeamId)
    (teamPlayers : TeamPlayers) (teamTagMap : TeamId → Option String)
    (state : DetectState) (kill : RoundEventData)
    (h1 : StatesOK state.clutchStates) (h2 : ConfirmedOK state.confirmedClutch) :
    StatesOK (clutchKillStep round playerTeam teamPlayers teamTagMap state kill).clutchStates ∧
      ConfirmedOK (clutchKillStep round playerTeam teamPlayers teamTagMap state kill).confirmedClutch := by
  unfold clutchKillStep
  split
  · exact ⟨h1, h2⟩
  · split
    · exact ⟨h1, h2⟩
    · dsimp only
      split
      · split
        · exact ⟨h1, h2⟩
        · apply clutchConfirmInvalidate_ok
          · dsimp only
            split
            · exact setClutchState_ok h1 (determineSide_valid _ _ _)
            · exact h1
          · exact h2
      · exact clutchConfirmInvalidate_ok h1 h2

theorem clutchFold_ok (round : RoundData) (playerTeam : PlayerId → Option TeamId)
    (teamPlayers : TeamPlayers) (teamTagMap : TeamId → Option String)
    (kills : List RoundEventData) (state : DetectState)
    (h1 : StatesOK state.clutchStates) (h2 : ConfirmedOK state.confirmedClutch) :
    StatesOK (kills.foldl (clutchKillStep round playerTeam teamPlayers teamTagMap) state).clutchStates ∧
      ConfirmedOK (kills.foldl (clutchKillStep round playerTeam teamPlayers teamTagMap) state).confirmedClutch := by
  induction kills generalizing state with
  | nil => exact ⟨h1, h2⟩
  | cons k rest ih =>
    obtain ⟨ha, hb⟩ := clutchKillStep_ok round playerTeam teamPlayers teamTagMap state k h1 h2
    exact ih _ ha hb

theorem endOfRoundConfirm_ok (alive : PlayerId → Bool) (lastTimestamp : Int)
    (l : List (TeamId × ClutchState)) (conf : Option ClutchState) (tid : TeamId)
    (hl : StatesOK l) (hc : ConfirmedOK conf) :
    ConfirmedOK (endOfRoundConfirm alive lastTimestamp l conf tid).1 := by
  induction l generalizing conf tid with
  | nil => exact hc
  | cons hd tl ih =>
    obtain ⟨teamID, st⟩ := hd
    have hst : ValidSide st.side := hl _ (List.mem_cons_self _ _)
    have htl : StatesOK tl := fun x hx => hl x (List.mem_cons_of_mem _ hx)
    simp only [endOfRoundConfirm]
    split
    · exact ih _ _ htl (by intro c hcc; cases hcc; exact hst)
    · exact ih _ _ htl hc

/-- A detected clutch always names the round it was detected in and carries
a legal side. -/
theorem detectClutchInRound_some {round : RoundData} {events : List RoundEventData}
    {playerTeam : PlayerId → Option TeamId} {teamPlayers : TeamPlayers}
    {teamTagMap : TeamId → Option String} {c : ClutchResult}
    (h : detectClutchInRound round events playerTeam teamPlayers teamTagMap = some c) :
    c.roundID = round.id ∧ ValidSide c.side := by
  obtain ⟨hs, hcf⟩ := clutchFold_ok round playerTeam teamPlayers teamTagMap
    (events.filter isKillWithVictim)
    { alive := fun p => teamPlayers.any (fun tp => tp.2.contains p)
      clutchStates := []
      confirmedClutch := none
      clutcherTeamID := 0
      lastTimestamp := 0 }
    statesOK_nil (fun c hc => nomatch hc)
  unfold detectClutchInRound at h
  simp only [] at h
  split at h
  · cases h
  next c0 tid heq =>
    cases h
    refine ⟨rfl, ?_⟩
    split at heq
    next c1 hfc =>
      obtain rfl : c1 = c0 := by
        have := congrArg Prod.fst heq
        simpa using this
      exact hcf _ hfc
    next hfc =>
      have hfst := congrArg Prod.fst heq
      simp only [] at hfst
      exact endOfRoundConfirm_ok _ _ _ none _ hs (fun c hc => nomatch hc) _ hfst

theorem computeClutches_cons (round : RoundData) (rounds : List RoundData)
    (events : List RoundEventData) (playerTeam : PlayerId → Option TeamId)
    (teamPlayers : TeamPlayers) (teamTagMap : TeamId → Option String) :
    ComputeClutches (round :: rounds) events playerTeam teamPlayers teamTagMap =
      match detectClutchInRound round (events.filter (fun e => e.roundID = round.id))
          playerTeam teamPlayers teamTagMap with
      | some c => c :: ComputeClutches rounds events playerTeam teamPlayers teamTagMap
      | none => ComputeClutches rounds events playerTeam teamPlayers teamTagMap := rfl

/-- Every computed clutch belongs to a listed round and carries a legal
side. -/
theorem computeClutches_mem (rounds : List RoundData) (events : List RoundEventData)
    (playerTeam : PlayerId → Option TeamId) (teamPlayers : TeamPlayers)
    (teamTagMap : TeamId → Option String) :
    ∀ c ∈ ComputeClutches rounds events playerTeam teamPlayers teamTagMap,
      c.roundID ∈ rounds.map RoundData.id ∧ ValidSide c.side := by
  induction rounds with
  | nil => intro c hc; cases hc
  | cons round rest ih =>
    intro c hc
    rw [computeClutches_cons] at hc
    simp only [List.map_cons, List.mem_cons]
    split at hc
    next c0 hdet =>
      rcases List.mem_cons.mp hc with rfl | h
      · obtain ⟨h1, h2⟩ := detectClutchInRound_some hdet
        exact ⟨Or.inl h1, h2⟩
      · obtain ⟨h1, h2⟩ := ih c h
        exact ⟨Or.inr h1, h2⟩
    next hdet =>
      obtain ⟨h1, h2⟩ := ih c hc
      exact ⟨Or.inr h1, h2⟩

/-- C4, uniqueness half: with pairwise-distinct round ids, at most one
clutch result is produced per round. -/
theorem computeClutches_countP (rounds : List RoundData) (events : List RoundEventData)
    (playerTeam : PlayerId → Option TeamId) (teamPlayers : TeamPlayers)
    (teamTagMap : TeamId → Option String)
    (hnd : (rounds.map RoundData.id).Nodup) (rid : RoundId) :
    (ComputeClutches rounds events playerTeam teamPlayers teamTagMap).countP
      (fun c => c.roundID == rid) ≤ 1 := by
  induction rounds with
  | nil => simp [ComputeClutches]
  | cons round rest ih =>
    simp only [List.map_cons, List.nodup_cons] at hnd
    obtain ⟨hnotin, hnd'⟩ := hnd
    rw [computeClutches_cons]
    split
    next c0 hdet =>
      rw [List.countP_cons]
      by_cases hr : c0.roundID = rid
      · have hrid : c0.roundID = round.id := (detectClutchInRound_some hdet).1
        have hzero : (ComputeClutches rest events playerTeam teamPlayers teamTagMap).countP
            (fun c => c.roundID == rid) = 0 := by
          rw [List.countP_eq_zero]
          intro c hc
          have hmem := (computeClutches_mem rest events playerTeam teamPlayers teamTagMap c hc).1
          simp only [beq_iff_eq]
          intro hcrid
          exact hnotin (by rw [hcrid, ← hr, hrid] at hmem; exact hmem)
        rw [hzero]
        simp [hr]
      · simp only [beq_iff_eq, hr, if_neg, not_false_iff, Nat.add_zero]
        exact ih hnd'
    next hdet => exact ih hnd'

theorem buildClutchRows_cons (cr : ClutchResult) (rest : List ClutchResult) :
    buildClutchRows (cr :: rest) =
      clutcherRowOf cr :: (cr.opponentIDs.map (opponentRowOf cr) ++ buildClutchRows rest) := rfl

/-- The rows of a result list hold exactly one `is_clutcher` row per result
matching a round id. -/
theorem buildClutchRows_count (results : List ClutchResult) (rid : RoundId) :
    (buildClutchRows results).countP (fun r => r.isClutcher && r.roundID == rid)
      = results.countP (fun c => c.roundID == rid) := by
  induction results with
  | nil => rfl
  | cons cr rest ih =>
    rw [buildClutchRows_cons, List.countP_cons, List.countP_append, List.countP_map, ih]
    have hzero : cr.opponentIDs.countP
        ((fun r => r.isClutcher && r.roundID == rid) ∘ opponentRowOf cr) = 0 := by
      rw [List.countP_eq_zero]
      intro o ho
      simp [opponentRowOf]
    rw [hzero, List.countP_cons]
    simp only [clutcherRowOf, Bool.true_and]
    omega

/-- Every row of `buildClutchRows` traces back to a clutch result: the
clutcher row copies its side and `won`, each opponent row inverts them. -/
theorem buildClutchRows_mem (results : List ClutchResult) :
    ∀ row ∈ buildClutchRows results, ∃ cr ∈ results,
      row.roundID = cr.roundID ∧
      ((row.isClutcher = true ∧ row.playerID = cr.clutcherID ∧
          row.side = cr.side ∧ row.won = cr.won) ∨
       (row.isClutcher = false ∧ row.side = getOppositeSide cr.side ∧
          row.won = !cr.won ∧ row.playerID ∈ cr.opponentIDs)) := by
  induction results with
  | nil => intro row h; cases h
  | cons cr rest ih =>
    intro row hrow
    rw [buildClutchRows_cons] at hrow
    rcases List.mem_cons.mp hrow with rfl | hrow'
    · exact ⟨cr, List.mem_cons_self _ _, rfl, Or.inl ⟨rfl, rfl, rfl, rfl⟩⟩
    · rcases List.mem_append.mp hrow' with hmap | htail
      · obtain ⟨o, ho, rfl⟩ := List.mem_map.mp hmap
        exact ⟨cr, List.mem_cons_self _ _, rfl, Or.inr ⟨rfl, rfl, rfl, ho⟩⟩
      · obtain ⟨cr', hcr', hprops⟩ := ih row htail
        exact ⟨cr', List.mem_cons_of_mem _ hcr', hprops⟩

/-- In a list whose `countP` for `p` is at most one, any two members
satisfying `p` coincide. -/
theorem eq_of_countP_le_one {α : Type} {l : List α} {p : α → Bool}
    (h : l.countP p ≤ 1) {a b : α} (ha : a ∈ l) (hb : b ∈ l)
    (pa : p a = true) (pb : p b = true) : a = b := by
  induction l with
  | nil => cases ha
  | cons x xs ih =>
    rw [List.countP_cons] at h
    rcases List.mem_cons.mp ha with rfl | ha' <;> rcases List.mem_cons.mp hb with rfl | hb'
    · rfl
    · exfalso
      have h1 : 0 < xs.countP p := List.countP_pos_iff.mpr ⟨b, hb', pb⟩
      have h2 : (if p a = true then 1 else 0) = 1 := by simp [pa]
      rw [h2] at h
      omega
    · exfalso
      have h1 : 0 < xs.countP p := List.countP_pos_iff.mpr ⟨a, ha', pa⟩
      have h2 : (if p b = true then 1 else 0) = 1 := by simp [pb]
      rw [h2] at h
      omega
    · exact ih (by omega) ha' hb'

/-- C4 requires the round-id well-formedness hypothesis; under it:
at most one clutch result per round; for the round's clutch, the emitted
rows for that round contain exactly one `is_clutcher = true` row, which is
the clutcher's and copies the clutch's (two-valued) side and `won`; every
other row for that round is an opponent row with the opposite side and the
negated `won`. -/
theorem C4_clutch_coherence (rounds : List RoundData) (events : List RoundEventData)
    (playerTeam : PlayerId → Option TeamId) (teamPlayers : TeamPlayers)
    (teamTagMap : TeamId → Option String)
    (hnd : (rounds.map RoundData.id).Nodup) (rid : RoundId) :
    ((ComputeClutches rounds events playerTeam teamPlayers teamTagMap).countP
        (fun c => c.roundID == rid) ≤ 1) ∧
    (∀ cr ∈ ComputeClutches rounds events playerTeam teamPlayers teamTagMap,
      cr.roundID = rid →
      (cr.side = "Attack" ∨ cr.side = "Defense") ∧
      ((buildClutchRows (ComputeClutches rounds events playerTeam teamPlayers teamTagMap)).countP
          (fun r => r.isClutcher && r.roundID == rid) = 1) ∧
      (∀ row ∈ buildClutchRows (ComputeClutches rounds events playerTeam teamPlayers teamTagMap),
        row.roundID = rid →
        (row.isClutcher = true → row.playerID = cr.clutcherID ∧
          row.side = cr.side ∧ row.won = cr.won) ∧
        (row.isClutcher = false → row.side = getOppositeSide cr.side ∧
          row.won = !cr.won))) := by
  have hcount := computeClutches_countP rounds events playerTeam teamPlayers teamTagMap hnd rid
  refine ⟨hcount, ?_⟩
  intro cr hcr hcrid
  have hvalid := (computeClutches_mem rounds events playerTeam teamPlayers teamTagMap cr hcr).2
  refine ⟨hvalid, ?_, ?_⟩
  · rw [buildClutchRows_count]
    have hpos : 0 < (ComputeClutches rounds events playerTeam teamPlayers teamTagMap).countP
        (fun c => c.roundID == rid) :=
      List.countP_pos_iff.mpr ⟨cr, hcr, by simp [hcrid]⟩
    omega
  · intro row hrow hrowrid
    obtain ⟨cr', hcr', hrid', hprops⟩ :=
      buildClutchRows_mem (ComputeClutches rounds events playerTeam teamPlayers teamTagMap) row hrow
    have hcreq : cr' = cr := by
      apply eq_of_countP_le_one hcount hcr' hcr
      · simp [← hrid', hrowrid]
      · simp [hcrid]
    subst hcreq
    constructor
    · intro hic
      rcases hprops with ⟨-, h2, h3, h4⟩ | ⟨hfalse, -⟩
      · exact ⟨h2, h3, h4⟩
      · rw [hic] at hfalse; cases hfalse
    · intro hic
      rcases hprops with ⟨htrue, -⟩ | ⟨-, h2, h3, -⟩
      · rw [hic] at htrue; cases htrue
      · exact ⟨h2, h3⟩

/-- Witness for C4 at a concrete snapshot: one round (id 5) in which player
20 kills player 10 at t=1000, leaving player 11 in a 1v1 confirmed at
t=5000; the emitted rows carry exactly one `is_clutcher = true` row for
round 5, and the single opponent row inverts side and `won`. -/
theorem C4_clutch_coherence_witness :
    (buildClutchRows (ComputeClutches
        [{ id := 5, roundNumber := 0, winnerTeamID := some 1 }]
        [{ roundID := 5, timestampMS := 1000, eventType := "kill",
           playerID := 20, victimID := some 10 },
         { roundID := 5, timestampMS := 5000, eventType := "kill",
           playerID := 11, victimID := some 20 }]
        (fun p => if p = 20 then some 2 else if p = 10 ∨ p = 11 then some 1 else none)
        [(1, [10, 11]), (2, [20])]
        (fun t => if t = 1 then some "Red" else if t = 2 then some "Blue" else none))).countP
      (fun r => r.isClutcher && r.roundID == 5) = 1 := by
  have h := C4_clutch_coherence
    [{ id := 5, roundNumber := 0, winnerTeamID := some 1 }]
    [{ roundID := 5, timestampMS := 1000, eventType := "kill",
       playerID := 20, victimID := some 10 },
     { roundID := 5, timestampMS := 5000, eventType := "kill",
       playerID := 11, victimID := some 20 }]
    (fun p => if p = 20 then some 2 else if p = 10 ∨ p = 11 then some 1 else none)
    [(1, [10, 11]), (2, [20])]
    (fun t => if t = 1 then some "Red" else if t = 2 then some "Blue" else none)
    (by decide) 5
  exact (h.2
    { roundID := 5, clutcherID := 11, opponentIDs := [20], type := 1,
      won := true, side := "Attack", situation := "pre-plant",
      clutchStartTimeMS := 1000, clutchEndTimeMS := 5000 }
    (by decide) rfl).2.1

/-! ## Team match stats and team match side stats (team_stats.go, builder.go) -/

/-- `TeamMatchSideStatsRow` (model.go), restricted to the fields the claims
read (ratios, clutch/trade/entry/multikill counters and overtime fields are
omitted). -/
structure TeamMatchSideStatsRow where
  teamID : TeamId
  teamSide : String
  roundsPlayed : Nat
  roundsWon : Nat
  kills : Int
  deaths : Int
  damageGiven : Int
  damageTaken : Int
  deriving Repr, DecidableEq

/-- `TeamMatchStatsRow` (model.go), restricted to the fields the claims
read. -/
structure TeamMatchStatsRow where
  teamID : TeamId
  roundsPlayed : Nat
  roundsWon : Nat
  kills : Int
  deaths : Int
  damageGiven : Int
  damageTaken : Int
  deriving Repr, DecidableEq

/-- `getRoundIDsForTeamSide` (builder.go lines 457-468): the rounds on which
the team (identified against the global Red/Blue constants) plays `side`. -/
def getRoundIDsForTeamSide (rounds : List RoundData) (teamID : TeamId)
    (side : String) : List RoundId :=
  (rounds.filter (fun round => DetermineSideByID round.roundNumber teamID == side)).map
    RoundData.id

/-- The `playerStatsMap` row selection of `BuildTeamMatchSideStats`
(builder.go lines 254-266): rows of players bound to the team whose round
is in the side's round list. -/
def sideSelectedRows (roundPlayerStats : List RoundPlayerStatsRow)
    (playerTeam : PlayerId → Option TeamId) (teamID : TeamId)
    (roundIDs : List RoundId) : List RoundPlayerStatsRow :=
  roundPlayerStats.filter
    (fun rps => playerTeam rps.playerID == some teamID && roundIDs.contains rps.roundID)

/-- The per-(team, side) body of `BuildTeamMatchSideStats` (builder.go lines
245-450): skip the side when it has no rounds, otherwise emit one row.  The
source groups the selected rows by player before accumulating; integer
totals are invariant under that regrouping and are summed directly here
(the grouping only affects the omitted per-player ratio fields).  The
source reads winners through the `roundByID` map; on duplicate round ids
the map keeps the last entry while `find?` keeps the first — the claims
assume distinct round ids. -/
def sideRowFor (rounds : List RoundData) (roundPlayerStats : List RoundPlayerStatsRow)
    (playerTeam : PlayerId → Option TeamId) (teamID : TeamId) (side : String) :
    List TeamMatchSideStatsRow :=
  let roundIDs := getRoundIDsForTeamSide rounds teamID side
  if roundIDs.isEmpty then []
  else
    let teamStats := sideSelectedRows roundPlayerStats playerTeam teamID roundIDs
    [{ teamID := teamID
       teamSide := side
       roundsPlayed := roundIDs.length
       roundsWon := (roundIDs.filter (fun rid =>
         match rounds.find? (fun r => r.id == rid) with
         | some r => r.winnerTeamID == some teamID
         | none => false)).length
       kills := (teamStats.map (fun r => r.kills)).sum
       deaths := (teamStats.map (fun r => r.deaths)).sum
       damageGiven := (teamStats.map (fun r => r.damageGiven)).sum
       damageTaken := (teamStats.map (fun r => r.damageTaken)).sum }]

/-- `BuildTeamMatchSideStats` (builder.go lines 224-454): iterates the fixed
global `[RedTeamID, BlueTeamID]` pair — not the match's dynamic team ids —
against the two sides. -/
def BuildTeamMatchSideStats (rounds : List RoundData)
    (roundPlayerStats : List RoundPlayerStatsRow)
    (playerTeam : PlayerId → Option TeamId) : List TeamMatchSideStatsRow :=
  sideRowFor rounds roundPlayerStats playerTeam RedTeamID "Attack" ++
  sideRowFor rounds roundPlayerStats playerTeam RedTeamID "Defense" ++
  sideRowFor rounds roundPlayerStats playerTeam BlueTeamID "Attack" ++
  sideRowFor rounds roundPlayerStats playerTeam BlueTeamID "Defense"

/-- The `statsByTeamPlayer` row selection of `BuildTeamMatchStats`
(team_stats.go lines 25-35): all rows of players bound to the team. -/
def teamSelectedRows (roundPlayerStats : List RoundPlayerStatsRow)
    (playerTeam : PlayerId → Option TeamId) (teamID : TeamId) :
    List RoundPlayerStatsRow :=
  roundPlayerStats.filter (fun rps => playerTeam rps.playerID == some teamID)

/-- `BuildTeamMatchStats` (team_stats.go lines 9-247): one row per entry of
the dynamic `teamIDs` list.  `analyzeRoundsForTeams` counts every round for
every team (`Total++` unconditionally), so `roundsPlayed` is the number of
rounds; the per-player grouping of the source is again only relevant to
the omitted ratio fields, so totals are summed directly. -/
def BuildTeamMatchStats (rounds : List RoundData)
    (roundPlayerStats : List RoundPlayerStatsRow)
    (playerTeam : PlayerId → Option TeamId) (teamIDs : List TeamId) :
    List TeamMatchStatsRow :=
  teamIDs.map (fun teamID =>
    let teamStats := teamSelectedRows roundPlayerStats playerTeam teamID
    { teamID := teamID
      roundsPlayed := rounds.length
      roundsWon := (rounds.filter (fun r => r.winnerTeamID == some teamID)).length
      kills := (teamStats.map (fun r => r.kills)).sum
      deaths := (teamStats.map (fun r => r.deaths)).sum
      damageGiven := (teamStats.map (fun r => r.damageGiven)).sum
      damageTaken := (teamStats.map (fun r => r.damageTaken)).sum })

/-- C9 fails on the code: `BuildTeamMatchSideStats` iterates the fixed
global Red/Blue team ids while `BuildTeamMatchStats` iterates the match's
dynamic team ids.  For a snapshot whose only team has the dynamic id 7
(one round, one player with one kill), the team-match row for team 7 holds
1 kill and 1 round played, but no side row for team 7 exists at all, so
the side sums are 0. -/
theorem C9_side_partition_counterexample :
    let rounds : List RoundData := [{ id := 1, roundNumber := 0, winnerTeamID := some 7 }]
    let rps : List RoundPlayerStatsRow :=
      [{ roundID := 1, playerID := 1, cs := 0, kills := 1, deaths := 0, assists := 0,
         damageGiven := 0, damageTaken := 0, survived := true, firstKill := true,
         firstDeath := false, tradeKill := 0, tradedDeath := 0 }]
    let playerTeam : PlayerId → Option TeamId := fun p => if p = 1 then some 7 else none
    let matchRows := BuildTeamMatchStats rounds rps playerTeam [7]
    let sideRows := BuildTeamMatchSideStats rounds rps playerTeam
    (∃ mrow ∈ matchRows, mrow.teamID = 7 ∧ mrow.kills = 1 ∧ mrow.roundsPlayed = 1) ∧
    ((sideRows.filter (fun r => r.teamID == 7)).map (fun r => r.kills)).sum = 0 ∧
    ((sideRows.filter (fun r => r.teamID == 7)).map
      (fun r => (r.roundsPlayed : Int))).sum = 0 := by
  exact ⟨⟨_, List.mem_cons_self _ _, rfl, rfl, rfl⟩, by decide, by decide⟩

theorem determineSideByID_valid (n : Int) (t : TeamId) :
    DetermineSideByID n t = "Attack" ∨ DetermineSideByID n t = "Defense" := by
  unfold DetermineSideByID
  by_cases ht : t = RedTeamID <;>
    by_cases h1 : n < 12 <;>
    by_cases h2 : n < 24 <;>
    by_cases h3 : ((n - 24).tdiv 2).tmod 2 = 0 <;>
    by_cases h4 : (n - 24).tmod 2 = 0 <;>
    simp [ht, h1, h2, h3, h4]

theorem sideByID_defense_eq_not_attack (n : Int) (t : TeamId) :
    (DetermineSideByID n t == "Defense") = !(DetermineSideByID n t == "Attack") := by
  rcases determineSideByID_valid n t with h | h <;> rw [h] <;> rfl

theorem sum_filter_partition {α : Type} (l : List α) (p : α → Bool) (f : α → Int) :
    ((l.filter p).map f).sum + ((l.filter (fun a => !p a)).map f).sum = (l.map f).sum := by
  induction l with
  | nil => rfl
  | cons x xs ih =>
    by_cases h : p x <;> simp [List.filter_cons, h] <;> omega

theorem length_filter_partition {α : Type} (l : List α) (p : α → Bool) :
    (l.filter p).length + (l.filter (fun a => !p a)).length = l.length := by
  induction l with
  | nil => rfl
  | cons x xs ih =>
    by_cases h : p x <;> simp [List.filter_cons, h] <;> omega

theorem sideSelectedRows_eq (roundPlayerStats : List RoundPlayerStatsRow)
    (playerTeam : PlayerId → Option TeamId) (teamID : TeamId) (roundIDs : List RoundId) :
    sideSelectedRows roundPlayerStats playerTeam teamID roundIDs =
      (teamSelectedRows roundPlayerStats playerTeam teamID).filter
        (fun rps => roundIDs.contains rps.roundID) := by
  unfold sideSelectedRows teamSelectedRows
  rw [List.filter_filter]
  exact List.filter_congr (fun a _ => by rw [Bool.and_comm])

theorem sideSelectedRows_nil (roundPlayerStats : List RoundPlayerStatsRow)
    (playerTeam : PlayerId → Option TeamId) (teamID : TeamId) :
    sideSelectedRows roundPlayerStats playerTeam teamID [] = [] := by
  unfold sideSelectedRows
  rw [List.filter_eq_nil_iff]
  intro a ha
  simp

/-- With pairwise-distinct round ids, a round id of the snapshot lies in the
Defense round list exactly when it does not lie in the Attack round list. -/
theorem roundIDs_defense_eq_not_attack (rounds : List RoundData) (teamID : TeamId)
    (hnd : (rounds.map RoundData.id).Nodup) (rid : RoundId)
    (hmem : rid ∈ rounds.map RoundData.id) :
    ((getRoundIDsForTeamSide rounds teamID "Defense").contains rid)
      = !((getRoundIDsForTeamSide rounds teamID "Attack").contains rid) := by
  obtain ⟨round, hround, rfl⟩ := List.mem_map.mp hmem
  have hinj := List.inj_on_of_nodup_map hnd
  rcases determineSideByID_valid round.roundNumber teamID with hside | hside
  · have hA : (getRoundIDsForTeamSide rounds teamID "Attack").contains round.id = true := by
      simp only [getRoundIDsForTeamSide, List.contains_iff_exists_mem_beq]
      exact ⟨round.id, List.mem_map_of_mem _ (List.mem_filter.mpr ⟨hround, by simp [hside]⟩),
        by simp⟩
    have hD : (getRoundIDsForTeamSide rounds teamID "Defense").contains round.id = false := by
      rw [Bool.eq_false_iff]
      intro hcon
      simp only [getRoundIDsForTeamSide, List.contains_iff_exists_mem_beq] at hcon
      obtain ⟨rid', hrid', hbeq⟩ := hcon
      obtain ⟨round', hround'mem, rfl⟩ := List.mem_map.mp hrid'
      obtain ⟨hr', hside'⟩ := List.mem_filter.mp hround'mem
      have hr'eq : round' = round := by
        apply hinj hr' hround
        exact (beq_iff_eq.mp hbeq).symm ▸ rfl
      rw [hr'eq, hside] at hside'
      simp at hside'
    rw [hA, hD]
    rfl
  · have hA : (getRoundIDsForTeamSide rounds teamID "Attack").contains round.id = false := by
      rw [Bool.eq_false_iff]
      intro hcon
      simp only [getRoundIDsForTeamSide, List.contains_iff_exists_mem_beq] at hcon
      obtain ⟨rid', hrid', hbeq⟩ := hcon
      obtain ⟨round', hround'mem, rfl⟩ := List.mem_map.mp hrid'
      obtain ⟨hr', hside'⟩ := List.mem_filter.mp hround'mem
      have hr'eq : round' = round := by
        apply hinj hr' hround
        exact (beq_iff_eq.mp hbeq).symm ▸ rfl
      rw [hr'eq, hside] at hside'
      simp at hside'
    have hD : (getRoundIDsForTeamSide rounds teamID "Defense").contains round.id = true := by
      simp only [getRoundIDsForTeamSide, List.contains_iff_exists_mem_beq]
      exact ⟨round.id, List.mem_map_of_mem _ (List.mem_filter.mpr ⟨hround, by simp [hside]⟩),
        by simp⟩
    rw [hA, hD]
    rfl

/-- The two side selections partition the team's rows. -/
theorem side_sum_split (rounds : List RoundData)
    (roundPlayerStats : List RoundPlayerStatsRow)
    (playerTeam : PlayerId → Option TeamId) (teamID : TeamId)
    (hnd : (rounds.map RoundData.id).Nodup)
    (hrps : ∀ rps ∈ roundPlayerStats, rps.roundID ∈ rounds.map RoundData.id)
    (f : RoundPlayerStatsRow → Int) :
    ((sideSelectedRows roundPlayerStats playerTeam teamID
        (getRoundIDsForTeamSide rounds teamID "Attack")).map f).sum +
    ((sideSelectedRows roundPlayerStats playerTeam teamID
        (getRoundIDsForTeamSide rounds teamID "Defense")).map f).sum =
    ((teamSelectedRows roundPlayerStats playerTeam teamID).map f).sum := by
  rw [sideSelectedRows_eq, sideSelectedRows_eq]
  have hcongr : (teamSelectedRows roundPlayerStats playerTeam teamID).filter
      (fun rps => (getRoundIDsForTeamSide rounds teamID "Defense").contains rps.roundID) =
    (teamSelectedRows roundPlayerStats playerTeam teamID).filter
      (fun rps => !((getRoundIDsForTeamSide rounds teamID "Attack").contains rps.roundID)) := by
    apply List.filter_congr
    intro a ha
    exact roundIDs_defense_eq_not_attack rounds teamID hnd a.roundID
      (hrps a (List.mem_of_mem_filter ha))
  rw [hcongr]
  exact sum_filter_partition _ _ f

theorem filter_sideRowFor_self (rounds : List RoundData)
    (roundPlayerStats : List RoundPlayerStatsRow)
    (playerTeam : PlayerId → Option TeamId) (t : TeamId) (s : String) :
    (sideRowFor rounds roundPlayerStats playerTeam t s).filter
      (fun r => r.teamID == t) = sideRowFor rounds roundPlayerStats playerTeam t s := by
  unfold sideRowFor
  dsimp only
  split
  · rfl
  · simp

theorem filter_sideRowFor_other (rounds : List RoundData)
    (roundPlayerStats : List RoundPlayerStatsRow)
    (playerTeam : PlayerId → Option TeamId) (t t' : TeamId) (s : String)
    (h : t' ≠ t) :
    (sideRowFor rounds roundPlayerStats playerTeam t' s).filter
      (fun r => r.teamID == t) = [] := by
  unfold sideRowFor
  dsimp only
  split
  · rfl
  · simp [h]

/-- The `kills` total of one side block equals the sum over its selected
rows, also when the block is omitted for lack of rounds. -/
theorem sideRowFor_sum_kills (rounds : List RoundData)
    (roundPlayerStats : List RoundPlayerStatsRow)
    (playerTeam : PlayerId → Option TeamId) (t : TeamId) (s : String) :
    ((sideRowFor rounds roundPlayerStats playerTeam t s).map (fun r => r.kills)).sum =
      ((sideSelectedRows roundPlayerStats playerTeam t
          (getRoundIDsForTeamSide rounds t s)).map (fun r => r.kills)).sum := by
  unfold sideRowFor
  dsimp only
  split
  next hemp =>
    rw [List.isEmpty_iff.mp hemp, sideSelectedRows_nil]
    rfl
  next => simp

theorem sideRowFor_sum_deaths (rounds : List RoundData)
    (roundPlayerStats : List RoundPlayerStatsRow)
    (playerTeam : PlayerId → Option TeamId) (t : TeamId) (s : String) :
    ((sideRowFor rounds roundPlayerStats playerTeam t s).map (fun r => r.deaths)).sum =
      ((sideSelectedRows roundPlayerStats playerTeam t
          (getRoundIDsForTeamSide rounds t s)).map (fun r => r.deaths)).sum := by
  unfold sideRowFor
  dsimp only
  split
  next hemp =>
    rw [List.isEmpty_iff.mp hemp, sideSelectedRows_nil]
    rfl
  next => simp

theorem sideRowFor_sum_damageGiven (rounds : List RoundData)
    (roundPlayerStats : List RoundPlayerStatsRow)
    (playerTeam : PlayerId → Option TeamId) (t : TeamId) (s : String) :
    ((sideRowFor rounds roundPlayerStats playerTeam t s).map (fun r => r.damageGiven)).sum =
      ((sideSelectedRows roundPlayerStats playerTeam t
          (getRoundIDsForTeamSide rounds t s)).map (fun r => r.damageGiven)).sum := by
  unfold sideRowFor
  dsimp only
  split
  next hemp =>
    rw [List.isEmpty_iff.mp hemp, sideSelectedRows_nil]
    rfl
  next => simp

theorem sideRowFor_sum_damageTaken (rounds : List RoundData)
    (roundPlayerStats : List RoundPlayerStatsRow)
    (playerTeam : PlayerId → Option TeamId) (t : TeamId) (s : String) :
    ((sideRowFor rounds roundPlayerStats playerTeam t s).map (fun r => r.damageTaken)).sum =
      ((sideSelectedRows roundPlayerStats playerTeam t
          (getRoundIDsForTeamSide rounds t s)).map (fun r => r.damageTaken)).sum := by
  unfold sideRowFor
  dsimp only
  split
  next hemp =>
    rw [List.isEmpty_iff.mp hemp, sideSelectedRows_nil]
    rfl
  next => simp

theorem sideRowFor_sum_roundsPlayed (rounds : List RoundData)
    (roundPlayerStats : List RoundPlayerStatsRow)
    (playerTeam : PlayerId → Option TeamId) (t : TeamId) (s : String) :
    ((sideRowFor rounds roundPlayerStats playerTeam t s).map
        (fun r => (r.roundsPlayed : Int))).sum =
      ((getRoundIDsForTeamSide rounds t s).length : Int) := by
  unfold sideRowFor
  dsimp only
  split
  next hemp =>
    rw [List.isEmpty_iff.mp hemp]
    rfl
  next => simp

/-- The side round lists of one team partition the round list. -/
theorem roundIDs_length_split (rounds : List RoundData) (t : TeamId) :
    (getRoundIDsForTeamSide rounds t "Attack").length +
      (getRoundIDsForTeamSide rounds t "Defense").length = rounds.length := by
  unfold getRoundIDsForTeamSide
  rw [List.length_map, List.length_map]
  have hcongr : rounds.filter (fun round => DetermineSideByID round.roundNumber t == "Defense")
      = rounds.filter (fun round => !(DetermineSideByID round.roundNumber t == "Attack")) :=
    List.filter_congr (fun a _ => sideByID_defense_eq_not_attack a.roundNumber t)
  rw [hcongr]
  exact length_filter_partition rounds _

/-- C9, restricted to a team carried by one of the two global team ids: the
Attack/Defense side rows of the team sum to its team-match row for kills,
deaths, damage given, damage taken and rounds played (an empty side
contributing 0 through its omitted row), provided round ids are distinct
and every round-player row references a listed round.  For any other team
id the claim fails, because `BuildTeamMatchSideStats` emits side rows only
for the global Red/Blue ids (see the counterexample). -/
theorem C9_side_partition_for_global_teams (rounds : List RoundData)
    (roundPlayerStats : List RoundPlayerStatsRow)
    (playerTeam : PlayerId → Option TeamId) (teamIDs : List TeamId) (teamID : TeamId)
    (hteam : teamID = RedTeamID ∨ teamID = BlueTeamID)
    (hnd : (rounds.map RoundData.id).Nodup)
    (hrps : ∀ rps ∈ roundPlayerStats, rps.roundID ∈ rounds.map RoundData.id) :
    ∀ mrow ∈ BuildTeamMatchStats rounds roundPlayerStats playerTeam teamIDs,
      mrow.teamID = teamID →
      (((BuildTeamMatchSideStats rounds roundPlayerStats playerTeam).filter
          (fun r => r.teamID == teamID)).map (fun r => r.kills)).sum = mrow.kills ∧
      (((BuildTeamMatchSideStats rounds roundPlayerStats playerTeam).filter
          (fun r => r.teamID == teamID)).map (fun r => r.deaths)).sum = mrow.deaths ∧
      (((BuildTeamMatchSideStats rounds roundPlayerStats playerTeam).filter
          (fun r => r.teamID == teamID)).map (fun r => r.damageGiven)).sum = mrow.damageGiven ∧
      (((BuildTeamMatchSideStats rounds roundPlayerStats playerTeam).filter
          (fun r => r.teamID == teamID)).map (fun r => r.damageTaken)).sum = mrow.damageTaken ∧
      (((BuildTeamMatchSideStats rounds roundPlayerStats playerTeam).filter
          (fun r => r.teamID == teamID)).map (fun r => (r.roundsPlayed : Int))).sum
        = (mrow.roundsPlayed : Int) := by
  intro mrow hm hteq
  obtain ⟨t, ht, rfl⟩ := List.mem_map.mp hm
  have ht2 : t = teamID := hteq
  subst t
  have hfilter : (BuildTeamMatchSideStats rounds roundPlayerStats playerTeam).filter
      (fun r => r.teamID == teamID) =
      sideRowFor rounds roundPlayerStats playerTeam teamID "Attack" ++
      sideRowFor rounds roundPlayerStats playerTeam teamID "Defense" := by
    unfold BuildTeamMatchSideStats
    rw [List.filter_append, List.filter_append, List.filter_append]
    rcases hteam with rfl | rfl
    · rw [filter_sideRowFor_self, filter_sideRowFor_self,
        filter_sideRowFor_other _ _ _ _ _ _ (by decide),
        filter_sideRowFor_other _ _ _ _ _ _ (by decide)]
      simp
    · rw [filter_sideRowFor_other _ _ _ _ _ _ (by decide),
        filter_sideRowFor_other _ _ _ _ _ _ (by decide),
        filter_sideRowFor_self, filter_sideRowFor_self]
      simp
  rw [hfilter]
  simp only [List.map_append, List.sum_append]
  refine ⟨?_, ?_, ?_, ?_, ?_⟩
  · rw [sideRowFor_sum_kills, sideRowFor_sum_kills]
    exact side_sum_split rounds roundPlayerStats playerTeam teamID hnd hrps _
  · rw [sideRowFor_sum_deaths, sideRowFor_sum_deaths]
    exact side_sum_split rounds roundPlayerStats playerTeam teamID hnd hrps _
  · rw [sideRowFor_sum_damageGiven, sideRowFor_sum_damageGiven]
    exact side_sum_split rounds roundPlayerStats playerTeam teamID hnd hrps _
  · rw [sideRowFor_sum_damageTaken, sideRowFor_sum_damageTaken]
    exact side_sum_split rounds roundPlayerStats playerTeam teamID hnd hrps _
  · rw [sideRowFor_sum_roundsPlayed, sideRowFor_sum_roundsPlayed]
    have := roundIDs_length_split rounds teamID
    omega

/-- Witness for C9 at a concrete snapshot: one round won by the global red
team, one red player with 2 kills, 1 death, 100 damage given and 50 taken;
the red side rows sum to the red team-match row. -/
theorem C9_side_partition_witness :
    (((BuildTeamMatchSideStats
        [{ id := 1, roundNumber := 0, winnerTeamID := some RedTeamID }]
        [{ roundID := 1, playerID := 1, cs := 0, kills := 2, deaths := 1, assists := 0,
           damageGiven := 100, damageTaken := 50, survived := false, firstKill := true,
           firstDeath := false, tradeKill := 0, tradedDeath := 0 }]
        (fun p => if p = 1 then some RedTeamID else none)).filter
          (fun r => r.teamID == RedTeamID)).map (fun r => r.kills)).sum =
      ({ teamID := RedTeamID, roundsPlayed := 1, roundsWon := 1, kills := 2, deaths := 1,
         damageGiven := 100, damageTaken := 50 } : TeamMatchStatsRow).kills := by
  have h := C9_side_partition_for_global_teams
    [{ id := 1, roundNumber := 0, winnerTeamID := some RedTeamID }]
    [{ roundID := 1, playerID := 1, cs := 0, kills := 2, deaths := 1, assists := 0,
       damageGiven := 100, damageTaken := 50, survived := false, firstKill := true,
       firstDeath := false, tradeKill := 0, tradedDeath := 0 }]
    (fun p => if p = 1 then some RedTeamID else none)
    [RedTeamID, BlueTeamID] RedTeamID (Or.inl rfl) (by decide) (by decide)
  exact (h _ (by decide) rfl).1

/-! ## Match player stats and MVP (match_player_stats.go) -/

/-- `MatchPlayerStatsRow` (model.go), restricted to the fields the MVP
claim reads: player, average combat score and the mvp marker.  The
source's `ACS` pointer is always set by the builder and defaults to 0 in
`computeMVP` when nil. -/
structure MatchPlayerStatsRow where
  playerID : PlayerId
  acs : ℚ
  mvp : Nat
  deriving Repr, DecidableEq

/-- First-seen deduplication (auxiliary): keys not in `seen`, keeping the
first occurrence of each. -/
def dedupFirstAux {α : Type} [DecidableEq α] (seen : List α) : List α → List α
  | [] => []
  | x :: xs =>
    if seen.contains x then dedupFirstAux seen xs
    else x :: dedupFirstAux (x :: seen) xs

/-- First-seen deduplication, the determinization of iterating the
`statsByPlayer` Go map (whose order is unspecified): one key per distinct
player, in first-appearance order. -/
def dedupFirst {α : Type} [DecidableEq α] (l : List α) : List α :=
  dedupFirstAux [] l

/-- `strings.ToUpper`, restricted to the two winning-team tags the source
ever passes to it ("Red" and "Blue"). -/
def upperTag : String → String
  | "Red" => "RED"
  | "Blue" => "BLUE"
  | s => s

/-- The winning-team-tag computation of `BuildMatchPlayerStats`
(match_player_stats.go lines 266-272); "" when tied. -/
def winningTeamTag (teamRedScore teamBlueScore : Int) : String :=
  if teamRedScore > teamBlueScore then "Red"
  else if teamBlueScore > teamRedScore then "Blue"
  else ""

/-- The eligibility filter of `computeMVP` (match_player_stats.go lines
585-595): when a winning team exists, only rows of players bound to a team
whose tag equals the winning tag (or its uppercase form) are considered; a
missing tag reads as "" as a missing Go map key does. -/
def mvpEligible (playerTeam : PlayerId → Option TeamId)
    (teamTagMap : TeamId → Option String) (wtag : String)
    (row : MatchPlayerStatsRow) : Bool :=
  if wtag = "" then true
  else
    match playerTeam row.playerID with
    | none => false
    | some tid =>
      let ptag := (teamTagMap tid).getD ""
      ptag == wtag || ptag == upperTag wtag

/-- The argmax loop of `computeMVP` (match_player_stats.go lines 576-601):
`i` is the index of the next row, the accumulator holds `(mvpIndex,
highestACS)`; only a strictly larger ACS replaces the running best, so
ties keep the earlier row. -/
def mvpFold (playerTeam : PlayerId → Option TeamId)
    (teamTagMap : TeamId → Option String) (wtag : String) :
    List MatchPlayerStatsRow → Nat → Nat × ℚ → Nat × ℚ
  | [], _, best => best
  | row :: rest, i, best =>
    if mvpEligible playerTeam teamTagMap wtag row then
      if row.acs > best.2 then mvpFold playerTeam teamTagMap wtag rest (i + 1) (i, row.acs)
      else mvpFold playerTeam teamTagMap wtag rest (i + 1) best
    else mvpFold playerTeam teamTagMap wtag rest (i + 1) best

/-- `rows[mvpIndex].MVP = 1` (match_player_stats.go line 605). -/
def markMVP : List MatchPlayerStatsRow → Nat → List MatchPlayerStatsRow
  | [], _ => []
  | row :: rest, 0 => { row with mvp := 1 } :: rest
  | row :: rest, n + 1 => row :: markMVP rest n

/-- `computeMVP` (match_player_stats.go lines 569-607). -/
def computeMVP (playerTeam : PlayerId → Option TeamId)
    (teamTagMap : TeamId → Option String) (wtag : String)
    (rows : List MatchPlayerStatsRow) : List MatchPlayerStatsRow :=
  if rows.isEmpty then rows
  else
    let best := mvpFold playerTeam teamTagMap wtag rows 0 (0, -1)
    if best.2 ≥ 0 then markMVP rows best.1 else rows

/-- The pre-MVP row construction of `BuildMatchPlayerStats`
(match_player_stats.go lines 253-483), restricted to the fields the MVP
claim reads: one row per distinct player of the round-player universe (Go
map order determinized to first-seen order; the claim is
order-independent), with ACS = Σ cs / rounds-played and `mvp` = 0. -/
def matchPlayerBaseRows (roundPlayerStats : List RoundPlayerStatsRow) :
    List MatchPlayerStatsRow :=
  (dedupFirst (roundPlayerStats.map (fun r => r.playerID))).map
    (fun playerID =>
      let roundStats := roundPlayerStats.filter (fun r => r.playerID = playerID)
      let totalCS : ℚ := (roundStats.map (fun r => r.cs)).sum
      let roundsPlayed := roundStats.length
      let acs : ℚ := if roundsPlayed > 0 then totalCS / roundsPlayed else 0
      { playerID := playerID, acs := acs, mvp := 0 })

/-- `BuildMatchPlayerStats` (match_player_stats.go lines 226-494): the
per-player rows, then `computeMVP` on them with the winning team tag. -/
def BuildMatchPlayerStats (roundPlayerStats : List RoundPlayerStatsRow)
    (playerTeam : PlayerId → Option TeamId) (teamTagMap : TeamId → Option String)
    (teamRedScore teamBlueScore : Int) : List MatchPlayerStatsRow :=
  computeMVP playerTeam teamTagMap (winningTeamTag teamRedScore teamBlueScore)
    (matchPlayerBaseRows roundPlayerStats)

/-- C5 fails on the code: when the final scores differ but no produced row
belongs to a player of the winning team, `computeMVP` marks nobody.  With
one player on the Blue team and a 1-0 Red win, exactly one match-player
row is produced and it has `mvp = 0`. -/
theorem C5_mvp_unique_counterexample :
    let rows := BuildMatchPlayerStats
      [{ roundID := 1, playerID := 1, cs := 10, kills := 0, deaths := 0, assists := 0,
         damageGiven := 0, damageTaken := 0, survived := true, firstKill := false,
         firstDeath := false, tradeKill := 0, tradedDeath := 0 }]
      (fun p => if p = 1 then some 2 else none)
      (fun t => if t = 2 then some "Blue" else none)
      1 0
    rows.length = 1 ∧ rows.countP (fun r => r.mvp == 1) = 0 := by
  exact ⟨by decide, by decide⟩

theorem mvpFold_mono (playerTeam : PlayerId → Option TeamId)
    (teamTagMap : TeamId → Option String) (wtag : String)
    (l : List MatchPlayerStatsRow) (i : Nat) (b : Nat × ℚ) :
    b.2 ≤ (mvpFold playerTeam teamTagMap wtag l i b).2 := by
  induction l generalizing i b with
  | nil => exact le_refl _
  | cons r rest ih =>
    show (if mvpEligible playerTeam teamTagMap wtag r then
        if r.acs > b.2 then mvpFold playerTeam teamTagMap wtag rest (i + 1) (i, r.acs)
        else mvpFold playerTeam teamTagMap wtag rest (i + 1) b
      else mvpFold playerTeam teamTagMap wtag rest (i + 1) b).2 ≥ b.2
    by_cases he : mvpEligible playerTeam teamTagMap wtag r
    · rw [if_pos he]
      by_cases hgt : r.acs > b.2
      · rw [if_pos hgt]
        exact le_trans (le_of_lt hgt) (ih (i + 1) (i, r.acs))
      · rw [if_neg hgt]
        exact ih (i + 1) b
    · rw [if_neg he]
      exact ih (i + 1) b

theorem mvpFold_max (playerTeam : PlayerId → Option TeamId)
    (teamTagMap : TeamId → Option String) (wtag : String)
    (l : List MatchPlayerStatsRow) (i : Nat) (b : Nat × ℚ) :
    ∀ row ∈ l, mvpEligible playerTeam teamTagMap wtag row = true →
      row.acs ≤ (mvpFold playerTeam teamTagMap wtag l i b).2 := by
  induction l generalizing i b with
  | nil => intro row h; cases h
  | cons r rest ih =>
    intro row hrow helig
    show row.acs ≤ (if mvpEligible playerTeam teamTagMap wtag r then
        if r.acs > b.2 then mvpFold playerTeam teamTagMap wtag rest (i + 1) (i, r.acs)
        else mvpFold playerTeam teamTagMap wtag rest (i + 1) b
      else mvpFold playerTeam teamTagMap wtag rest (i + 1) b).2
    rcases List.mem_cons.mp hrow with rfl | hrest
    · rw [if_pos helig]
      by_cases hgt : row.acs > b.2
      · rw [if_pos hgt]
        exact mvpFold_mono playerTeam teamTagMap wtag rest (i + 1) (i, row.acs)
      · rw [if_neg hgt]
        exact le_trans (le_of_not_lt hgt) (mvpFold_mono playerTeam teamTagMap wtag rest (i + 1) b)
    · by_cases he : mvpEligible playerTeam teamTagMap wtag r
      · rw [if_pos he]
        by_cases hgt : r.acs > b.2
        · rw [if_pos hgt]
          exact ih (i + 1) (i, r.acs) row hrest helig
        · rw [if_neg hgt]
          exact ih (i + 1) b row hrest helig
      · rw [if_neg he]
        exact ih (i + 1) b row hrest helig

theorem mvpFold_valid (playerTeam : PlayerId → Option TeamId)
    (teamTagMap : TeamId → Option String) (wtag : String)
    (l : List MatchPlayerStatsRow) (i : Nat) (b : Nat × ℚ) :
    mvpFold playerTeam teamTagMap wtag l i b = b ∨
    ∃ j, ∃ hj : j < l.length,
      (mvpFold playerTeam teamTagMap wtag l i b).1 = i + j ∧
      mvpEligible playerTeam teamTagMap wtag (l.get ⟨j, hj⟩) = true ∧
      (l.get ⟨j, hj⟩).acs = (mvpFold playerTeam teamTagMap wtag l i b).2 := by
  induction l generalizing i b with
  | nil => exact Or.inl rfl
  | cons r rest ih =>
    show mvpFold playerTeam teamTagMap wtag (r :: rest) i b = b ∨ _
    have hstep : mvpFold playerTeam teamTagMap wtag (r :: rest) i b =
        (if mvpEligible playerTeam teamTagMap wtag r then
          if r.acs > b.2 then mvpFold playerTeam teamTagMap wtag rest (i + 1) (i, r.acs)
          else mvpFold playerTeam teamTagMap wtag rest (i + 1) b
        else mvpFold playerTeam teamTagMap wtag rest (i + 1) b) := rfl
    by_cases he : mvpEligible playerTeam teamTagMap wtag r
    · by_cases hgt : r.acs > b.2
      · rw [hstep, if_pos he, if_pos hgt]
        rcases ih (i + 1) (i, r.acs) with heq | ⟨j, hj, h1, h2, h3⟩
        · right
          refine ⟨0, by simp, ?_, ?_, ?_⟩
          · rw [heq]; simp
          · exact he
          · rw [heq]; simp
        · right
          refine ⟨j + 1, by simpa using Nat.succ_lt_succ hj, ?_, ?_, ?_⟩
          · rw [h1]; omega
          · simpa using h2
          · simpa using h3
      · rw [hstep, if_pos he, if_neg hgt]
        rcases ih (i + 1) b with heq | ⟨j, hj, h1, h2, h3⟩
        · exact Or.inl heq
        · right
          refine ⟨j + 1, by simpa using Nat.succ_lt_succ hj, ?_, ?_, ?_⟩
          · rw [h1]; omega
          · simpa using h2
          · simpa using h3
    · rw [hstep, if_neg he]
      rcases ih (i + 1) b with heq | ⟨j, hj, h1, h2, h3⟩
      · exact Or.inl heq
      · right
        refine ⟨j + 1, by simpa using Nat.succ_lt_succ hj, ?_, ?_, ?_⟩
        · rw [h1]; omega
        · simpa using h2
        · simpa using h3

theorem markMVP_count (l : List MatchPlayerStatsRow) (n : Nat)
    (hall : ∀ row ∈ l, row.mvp = 0) (hn : n < l.length) :
    (markMVP l n).countP (fun r => r.mvp == 1) = 1 := by
  induction l generalizing n with
  | nil => cases hn
  | cons r rest ih =>
    match n with
    | 0 =>
      show List.countP _ ({ r with mvp := 1 } :: rest) = 1
      rw [List.countP_cons]
      have hzero : rest.countP (fun r => r.mvp == 1) = 0 := by
        rw [List.countP_eq_zero]
        intro a ha
        simp [hall a (List.mem_cons_of_mem _ ha)]
      rw [hzero]
      simp
    | n + 1 =>
      show List.countP _ (r :: markMVP rest n) = 1
      rw [List.countP_cons]
      have h0 : r.mvp = 0 := hall r (List.mem_cons_self _ _)
      have := ih n (fun row h => hall row (List.mem_cons_of_mem _ h))
        (by simpa using Nat.lt_of_succ_lt_succ hn)
      simp [h0, this]

theorem markMVP_mem (l : List MatchPlayerStatsRow) (n : Nat) :
    ∀ row ∈ markMVP l n, ∃ row0 ∈ l,
      row.playerID = row0.playerID ∧ row.acs = row0.acs := by
  induction l generalizing n with
  | nil => intro row h; cases h
  | cons r rest ih =>
    match n with
    | 0 =>
      intro row hrow
      rcases List.mem_cons.mp hrow with rfl | h
      · exact ⟨r, List.mem_cons_self _ _, rfl, rfl⟩
      · exact ⟨row, List.mem_cons_of_mem _ h, rfl, rfl⟩
    | n + 1 =>
      intro row hrow
      rcases List.mem_cons.mp hrow with rfl | h
      · exact ⟨row, List.mem_cons_self _ _, rfl, rfl⟩
      · obtain ⟨row0, hrow0, h1, h2⟩ := ih n row h
        exact ⟨row0, List.mem_cons_of_mem _ hrow0, h1, h2⟩

theorem markMVP_marked (l : List MatchPlayerStatsRow) (n : Nat)
    (hall : ∀ row ∈ l, row.mvp = 0) (hn : n < l.length) :
    ∀ row ∈ markMVP l n, row.mvp = 1 →
      row = { l.get ⟨n, hn⟩ with mvp := 1 } := by
  induction l generalizing n with
  | nil => cases hn
  | cons r rest ih =>
    match n with
    | 0 =>
      intro row hrow hmvp
      rcases List.mem_cons.mp hrow with rfl | h
      · rfl
      · exact absurd hmvp (by simp [hall row (List.mem_cons_of_mem _ h)])
    | n + 1 =>
      intro row hrow hmvp
      rcases List.mem_cons.mp hrow with rfl | h
      · exact absurd hmvp (by simp [hall row (List.mem_cons_self _ _)])
      · exact ih n (fun row h => hall row (List.mem_cons_of_mem _ h))
          (by simpa using Nat.lt_of_succ_lt_succ hn) row h hmvp

theorem mvpEligible_congr (playerTeam : PlayerId → Option TeamId)
    (teamTagMap : TeamId → Option String) (wtag : String)
    {r r' : MatchPlayerStatsRow} (hp : r.playerID = r'.playerID) :
    mvpEligible playerTeam teamTagMap wtag r = mvpEligible playerTeam teamTagMap wtag r' := by
  unfold mvpEligible
  rw [hp]

/-- Behavioural specification of `computeMVP`: given rows whose mvp markers
start at 0, and given that some considered (winning-team-eligible) row
with nonnegative ACS exists, exactly one row comes out marked, it is
eligible, and its ACS is maximal among the eligible rows. -/
theorem computeMVP_spec (playerTeam : PlayerId → Option TeamId)
    (teamTagMap : TeamId → Option String) (wtag : String)
    (rows : List MatchPlayerStatsRow)
    (hall0 : ∀ row ∈ rows, row.mvp = 0)
    (helig : ∃ row ∈ computeMVP playerTeam teamTagMap wtag rows,
      mvpEligible playerTeam teamTagMap wtag row = true ∧ 0 ≤ row.acs) :
    ((computeMVP playerTeam teamTagMap wtag rows).countP (fun r => r.mvp == 1) = 1) ∧
    (∀ row ∈ computeMVP playerTeam teamTagMap wtag rows, row.mvp = 1 →
      mvpEligible playerTeam teamTagMap wtag row = true ∧
      ∀ row' ∈ computeMVP playerTeam teamTagMap wtag rows,
        mvpEligible playerTeam teamTagMap wtag row' = true → row'.acs ≤ row.acs) := by
  have hne : rows.isEmpty = false := by
    obtain ⟨row, hrow, -⟩ := helig
    cases hr : rows with
    | nil =>
      subst hr
      rw [show computeMVP playerTeam teamTagMap wtag [] = [] from rfl] at hrow
      cases hrow
    | cons a l => rfl
  -- every output row mirrors an input row in player and acs
  have hmirror : ∀ row ∈ computeMVP playerTeam teamTagMap wtag rows,
      ∃ row0 ∈ rows, row.playerID = row0.playerID ∧ row.acs = row0.acs := by
    intro row hrow
    unfold computeMVP at hrow
    rw [hne] at hrow
    simp only [Bool.false_eq_true, if_false] at hrow
    split at hrow
    · exact markMVP_mem rows _ row hrow
    · exact ⟨row, hrow, rfl, rfl⟩
  -- the best ACS found by the loop is nonnegative
  have hba : 0 ≤ (mvpFold playerTeam teamTagMap wtag rows 0 (0, -1)).2 := by
    obtain ⟨row, hrow, helig', hge⟩ := helig
    obtain ⟨row0, hrow0, hp, hacs⟩ := hmirror row hrow
    have helig0 : mvpEligible playerTeam teamTagMap wtag row0 = true := by
      rw [← mvpEligible_congr playerTeam teamTagMap wtag hp]
      exact helig'
    have := mvpFold_max playerTeam teamTagMap wtag rows 0 (0, -1) row0 hrow0 helig0
    have h0 : 0 ≤ row0.acs := hacs ▸ hge
    linarith
  have hout : computeMVP playerTeam teamTagMap wtag rows =
      markMVP rows (mvpFold playerTeam teamTagMap wtag rows 0 (0, -1)).1 := by
    unfold computeMVP
    rw [hne]
    simp only [Bool.false_eq_true, if_false]
    rw [if_pos hba]
  rcases mvpFold_valid playerTeam teamTagMap wtag rows 0 (0, -1) with heq | ⟨j, hj, h1, h2, h3⟩
  · exfalso
    rw [heq] at hba
    norm_num at hba
  have hn : (mvpFold playerTeam teamTagMap wtag rows 0 (0, -1)).1 < rows.length := by
    omega
  constructor
  · rw [hout]
    exact markMVP_count rows _ hall0 hn
  · intro row hrow hmvp
    rw [hout] at hrow
    have hrow_eq := markMVP_marked rows _ hall0 hn row hrow hmvp
    have hval : (mvpFold playerTeam teamTagMap wtag rows 0 (0, -1)).1 = j := by
      rw [h1]
      omega
    have hget : rows.get ⟨(mvpFold playerTeam teamTagMap wtag rows 0 (0, -1)).1, hn⟩
        = rows.get ⟨j, hj⟩ :=
      congrArg rows.get (Fin.ext hval)
    constructor
    · rw [hrow_eq]
      rw [mvpEligible_congr playerTeam teamTagMap wtag
        (show ({ rows.get ⟨(mvpFold playerTeam teamTagMap wtag rows 0 (0, -1)).1, hn⟩
          with mvp := 1 } : MatchPlayerStatsRow).playerID
          = (rows.get ⟨j, hj⟩).playerID from by rw [hget])]
      exact h2
    · intro row' hrow' helig'
      rw [hout] at hrow'
      obtain ⟨row0, hrow0, hp, hacs⟩ := markMVP_mem rows _ row' hrow'
      have helig0 : mvpEligible playerTeam teamTagMap wtag row0 = true := by
        rw [← mvpEligible_congr playerTeam teamTagMap wtag hp]
        exact helig'
      have hle := mvpFold_max playerTeam teamTagMap wtag rows 0 (0, -1) row0 hrow0 helig0
      have hacs_row : row.acs = (rows.get ⟨j, hj⟩).acs := by
        rw [hrow_eq, hget]
      rw [hacs, hacs_row, h3]
      exact hle

theorem matchPlayerBaseRows_mvp_zero (roundPlayerStats : List RoundPlayerStatsRow) :
    ∀ row ∈ matchPlayerBaseRows roundPlayerStats, row.mvp = 0 := by
  intro row hrow
  unfold matchPlayerBaseRows at hrow
  obtain ⟨pid, -, rfl⟩ := List.mem_map.mp hrow
  rfl

/-- C5 (amended): provided at least one produced match-player row both
passes the winning-team eligibility filter and has nonnegative ACS,
`BuildMatchPlayerStats` marks exactly one row with `mvp = 1`; that row is
eligible and its ACS is maximal among the eligible rows (under the
argmax's strict comparison, ties keep the earliest row).  Without such a
row — no produced row on the winning team, or every considered row of
negative ACS — no row is marked, refuting the claim's unconditional
"exactly one". -/
theorem C5_mvp_unique_among_eligible
    (roundPlayerStats : List RoundPlayerStatsRow)
    (playerTeam : PlayerId → Option TeamId) (teamTagMap : TeamId → Option String)
    (teamRedScore teamBlueScore : Int)
    (helig : ∃ row ∈ BuildMatchPlayerStats roundPlayerStats playerTeam teamTagMap
        teamRedScore teamBlueScore,
      mvpEligible playerTeam teamTagMap
        (winningTeamTag teamRedScore teamBlueScore) row = true ∧ 0 ≤ row.acs) :
    ((BuildMatchPlayerStats roundPlayerStats playerTeam teamTagMap teamRedScore
        teamBlueScore).countP (fun r => r.mvp == 1) = 1) ∧
    (∀ row ∈ BuildMatchPlayerStats roundPlayerStats playerTeam teamTagMap teamRedScore
        teamBlueScore, row.mvp = 1 →
      mvpEligible playerTeam teamTagMap (winningTeamTag teamRedScore teamBlueScore) row
        = true ∧
      ∀ row' ∈ BuildMatchPlayerStats roundPlayerStats playerTeam teamTagMap teamRedScore
          teamBlueScore,
        mvpEligible playerTeam teamTagMap (winningTeamTag teamRedScore teamBlueScore) row'
          = true → row'.acs ≤ row.acs) :=
  computeMVP_spec playerTeam teamTagMap (winningTeamTag teamRedScore teamBlueScore)
    (matchPlayerBaseRows roundPlayerStats)
    (matchPlayerBaseRows_mvp_zero roundPlayerStats)
    helig

theorem C5_mvp_unique_among_eligible_witness :
    ((BuildMatchPlayerStats
      [{ roundID := 1, playerID := 1, cs := 100, kills := 0, deaths := 0, assists := 0,
         damageGiven := 0, damageTaken := 0, survived := true, firstKill := false,
         firstDeath := false, tradeKill := 0, tradedDeath := 0 },
       { roundID := 1, playerID := 2, cs := 200, kills := 0, deaths := 0, assists := 0,
         damageGiven := 0, damageTaken := 0, survived := true, firstKill := false,
         firstDeath := false, tradeKill := 0, tradedDeath := 0 }]
      (fun p => if p = 1 then some 1 else if p = 2 then some 2 else none)
      (fun t => if t = 1 then some "Red" else if t = 2 then some "Blue" else none)
      1 0).countP (fun r => r.mvp == 1) = 1) := by
  have hout : BuildMatchPlayerStats
      [{ roundID := 1, playerID := 1, cs := 100, kills := 0, deaths := 0, assists := 0,
         damageGiven := 0, damageTaken := 0, survived := true, firstKill := false,
         firstDeath := false, tradeKill := 0, tradedDeath := 0 },
       { roundID := 1, playerID := 2, cs := 200, kills := 0, deaths := 0, assists := 0,
         damageGiven := 0, damageTaken := 0, survived := true, firstKill := false,
         firstDeath := false, tradeKill := 0, tradedDeath := 0 }]
      (fun p => if p = 1 then some 1 else if p = 2 then some 2 else none)
      (fun t => if t = 1 then some "Red" else if t = 2 then some "Blue" else none)
      1 0 =
      [{ playerID := 1, acs := 100, mvp := 1 }, { playerID := 2, acs := 200, mvp := 0 }] := by
    norm_num [BuildMatchPlayerStats, matchPlayerBaseRows, dedupFirst, dedupFirstAux,
      computeMVP, mvpFold, mvpEligible, markMVP, winningTeamTag, upperTag]
    rw [if_neg (by decide)]
    norm_num
  exact (C5_mvp_unique_among_eligible
    [{ roundID := 1, playerID := 1, cs := 100, kills := 0, deaths := 0, assists := 0,
       damageGiven := 0, damageTaken := 0, survived := true, firstKill := false,
       firstDeath := false, tradeKill := 0, tradedDeath := 0 },
     { roundID := 1, playerID := 2, cs := 200, kills := 0, deaths := 0, assists := 0,
       damageGiven := 0, damageTaken := 0, survived := true, firstKill := false,
       firstDeath := false, tradeKill := 0, tradedDeath := 0 }]
    (fun p => if p = 1 then some 1 else if p = 2 then some 2 else none)
    (fun t => if t = 1 then some "Red" else if t = 2 then some "Blue" else none)
    1 0
    (by rw [hout]
        exact ⟨{ playerID := 1, acs := 100, mvp := 1 }, List.mem_cons_self _ _, by decide,
          by norm_num⟩)).1

/-! Retry queue (canonical_reader.go lines 266-434).  Payloads are byte
lists; the Redis retry counter, keyed per payload by
`retryCounterKey` (queue name + SHA-256 hex of the bytes), is modelled as
an association list keyed by the payload itself — the hash only serves to
identify the payload.  `LPush` prepends.  Counter TTLs and Redis errors
are outside the claim. -/

/-- Payload bytes of a queued job. -/
abbrev Payload := List Nat

/-- `maxRetryAttempts` (canonical_reader.go line 271). -/
def maxRetryAttempts : Nat := 3

/-- Value of a per-payload retry counter; a missing Redis key reads 0. -/
def counterGet (cs : List (Payload × Nat)) (p : Payload) : Nat :=
  match cs.find? (fun e => e.1 == p) with
  | some e => e.2
  | none => 0

/-- `INCR`-style write of a per-payload retry counter. -/
def counterSet (cs : List (Payload × Nat)) (p : Payload) (n : Nat) : List (Payload × Nat) :=
  match cs with
  | [] => [(p, n)]
  | e :: rest => if e.1 == p then (p, n) :: rest else e :: counterSet rest p n

/-- `DEL` of a per-payload retry counter. -/
def counterDel (cs : List (Payload × Nat)) (p : Payload) : List (Payload × Nat) :=
  cs.filter (fun e => !(e.1 == p))

/-- The Redis state the retry path touches: the `<queue>:retry` list, the
`<queue>:dlq` list, and the per-payload retry counters. -/
structure QueueState where
  retryList : List Payload
  dlq : List Payload
  counters : List (Payload × Nat)
  deriving Repr, DecidableEq

/-- `incrementRetryCounter` (canonical_reader.go lines 416-424): `INCR`
the payload's counter and return the new value. -/
def incrementRetryCounter (s : QueueState) (p : Payload) : Nat × QueueState :=
  let count := counterGet s.counters p + 1
  (count, { s with counters := counterSet s.counters p count })

/-- `clearRetryCounter` (canonical_reader.go lines 426-429). -/
def clearRetryCounter (s : QueueState) (p : Payload) : QueueState :=
  { s with counters := counterDel s.counters p }

/-- `handleRetry` (canonical_reader.go lines 401-414): bump the counter;
move the payload to the DLQ and clear the counter when the bumped value
exceeds `maxRetryAttempts`, otherwise left-push it back on the retry
list. -/
def handleRetry (s : QueueState) (p : Payload) : QueueState :=
  let r := incrementRetryCounter s p
  if r.1 > maxRetryAttempts then
    clearRetryCounter { r.2 with dlq := p :: r.2.dlq } p
  else
    { r.2 with retryList := p :: r.2.retryList }

theorem counterGet_set (cs : List (Payload × Nat)) (p : Payload) (n : Nat) :
    counterGet (counterSet cs p n) p = n := by
  induction cs with
  | nil => simp [counterSet, counterGet]
  | cons e rest ih =>
    by_cases he : e.1 == p
    · simp [counterSet, he, counterGet]
    · simp only [counterSet, he, Bool.false_eq_true, if_false]
      simpa [counterGet, List.find?, he] using ih

theorem counterGet_del (cs : List (Payload × Nat)) (p : Payload) :
    counterGet (counterDel cs p) p = 0 := by
  unfold counterGet
  cases hf : (counterDel cs p).find? (fun e => e.1 == p) with
  | none => rfl
  | some e =>
    exfalso
    have hmem := List.mem_of_find?_eq_some hf
    have hpred := List.find?_some hf
    unfold counterDel at hmem
    have hne := List.of_mem_filter hmem
    simp at hne hpred
    exact hne hpred

theorem C8_third_failure_counterexample :
    let s := handleRetry (handleRetry (handleRetry ⟨[], [], []⟩ [1]) [1]) [1]
    s.retryList = [[1], [1], [1]] ∧ s.dlq = [] := by
  exact ⟨by decide, by decide⟩

/-- C8 (amended): a failed payload whose retry counter is still below
`maxRetryAttempts` (3) is left-pushed back on the retry list with its
counter incremented and the DLQ untouched — so the first three failures
all re-queue it, including the third; only when the incremented counter
exceeds 3 (the fourth failure on) is the payload left-pushed to the DLQ
instead, with the retry list untouched and its counter cleared. -/
theorem C8_dlq_after_counter_exceeds_three (s : QueueState) (p : Payload) :
    (counterGet s.counters p + 1 ≤ maxRetryAttempts →
      (handleRetry s p).retryList = p :: s.retryList ∧
      (handleRetry s p).dlq = s.dlq ∧
      counterGet (handleRetry s p).counters p = counterGet s.counters p + 1) ∧
    (counterGet s.counters p + 1 > maxRetryAttempts →
      (handleRetry s p).dlq = p :: s.dlq ∧
      (handleRetry s p).retryList = s.retryList ∧
      counterGet (handleRetry s p).counters p = 0) := by
  constructor
  · intro h
    unfold handleRetry incrementRetryCounter
    dsimp only
    rw [if_neg (by omega)]
    exact ⟨rfl, rfl, counterGet_set s.counters p _⟩
  · intro h
    unfold handleRetry incrementRetryCounter clearRetryCounter
    dsimp only
    rw [if_pos (by omega)]
    exact ⟨rfl, rfl, counterGet_del _ p⟩

theorem C8_dlq_after_counter_exceeds_three_witness :
    ((handleRetry ⟨[], [], []⟩ [1]).retryList = [[1]] ∧
      (handleRetry ⟨[], [], []⟩ [1]).dlq = [] ∧
      counterGet (handleRetry ⟨[], [], []⟩ [1]).counters [1] = 1) ∧
    ((handleRetry ⟨[], [], [([1], 3)]⟩ [1]).dlq = [[1]] ∧
      (handleRetry ⟨[], [], [([1], 3)]⟩ [1]).retryList = [] ∧
      counterGet (handleRetry ⟨[], [], [([1], 3)]⟩ [1]).counters [1] = 0) :=
  ⟨(C8_dlq_after_counter_exceeds_three ⟨[], [], []⟩ [1]).1 (by decide),
   (C8_dlq_after_counter_exceeds_three ⟨[], [], [([1], 3)]⟩ [1]).2 (by decide)⟩

/-! Aggregate writer (ca_refresher.go lines 177-324).  The store holds the
eleven aggregate tables plus the canonical `rounds` relation the purge
joins against; row contents are opaque beyond the key column a `DELETE`
reads.  A transaction is a private copy of the store: statements run
against it and only `Commit` publishes it, while the deferred `Rollback`
leaves the original store visible.  Statement failures (Postgres errors)
are modelled by an oracle `env : Nat → Bool` consulted at each statement,
numbered in execution order. -/

/-- A row of a `match_id`-keyed aggregate table; `payload` is the rest of
the row, opaque to the writer's purge. -/
structure MatchKeyedRow where
  matchID : Nat
  payload : Nat
  deriving Repr, DecidableEq

/-- A row of a `round_id`-keyed aggregate table (`clutches`,
`round_player_stats_agregate`, `round_team_stats_agregate`), purged via a
join on `rounds`. -/
structure RoundKeyedRow where
  roundID : Nat
  payload : Nat
  deriving Repr, DecidableEq

/-- The tables `WriteAll` touches, plus the canonical `rounds` relation
(`(round id, match id)` pairs) its join deletes read. -/
structure Store where
  rounds : List (Nat × Nat)
  compositionClutch : List MatchKeyedRow
  compositionWeapon : List MatchKeyedRow
  playerClutch : List MatchKeyedRow
  matchPlayerWeapon : List MatchKeyedRow
  matchPlayerDuels : List MatchKeyedRow
  teamMatchSide : List MatchKeyedRow
  teamMatch : List MatchKeyedRow
  matchPlayer : List MatchKeyedRow
  roundTeam : List RoundKeyedRow
  roundPlayer : List RoundKeyedRow
  clutches : List RoundKeyedRow
  deriving Repr, DecidableEq

/-- The `AggregateSet` rows `WriteAll` inserts (ca_refresher.go; fields
named as in the Go struct). -/
structure AggregateSet where
  matchID : Nat
  clutchRows : List RoundKeyedRow
  roundPlayerStats : List RoundKeyedRow
  roundTeamStats : List RoundKeyedRow
  matchPlayerStats : List MatchKeyedRow
  teamMatchStats : List MatchKeyedRow
  teamMatchSideStats : List MatchKeyedRow
  matchPlayerDuels : List MatchKeyedRow
  matchPlayerWeaponStats : List MatchKeyedRow
  playerClutchStats : List MatchKeyedRow
  compositionWeaponStats : List MatchKeyedRow
  compositionClutchStats : List MatchKeyedRow
  deriving Repr, DecidableEq

/-- Whether `rounds` has a round `rid` belonging to match `m` (the
`USING rounds r WHERE x.round_id = r.id AND r.match_id = $1` join). -/
def roundBelongs (rounds : List (Nat × Nat)) (m rid : Nat) : Bool :=
  rounds.any (fun e => e.1 == rid && e.2 == m)

/-- `DELETE FROM t WHERE match_id = $1`. -/
def deleteByMatch (t : List MatchKeyedRow) (m : Nat) : List MatchKeyedRow :=
  t.filter (fun r => !(r.matchID == m))

/-- `DELETE FROM t USING rounds r WHERE t.round_id = r.id AND r.match_id = $1`. -/
def deleteByRounds (t : List RoundKeyedRow) (rounds : List (Nat × Nat)) (m : Nat) :
    List RoundKeyedRow :=
  t.filter (fun r => !(roundBelongs rounds m r.roundID))

/-- The eleven deletes of `purgeAggregates` (ca_refresher.go lines
253-324), in source order (reverse FK order), as named statements. -/
def purgeSteps (m : Nat) : List (String × (Store → Store)) :=
  [("purge composition_clutch_stats_agregate", fun s =>
      { s with compositionClutch := deleteByMatch s.compositionClutch m }),
   ("purge composition_weapon_stats_agregate", fun s =>
      { s with compositionWeapon := deleteByMatch s.compositionWeapon m }),
   ("purge player_clutch_stats_agregate", fun s =>
      { s with playerClutch := deleteByMatch s.playerClutch m }),
   ("purge match_player_weapon_stats_agregate", fun s =>
      { s with matchPlayerWeapon := deleteByMatch s.matchPlayerWeapon m }),
   ("purge match_player_duels_agregate", fun s =>
      { s with matchPlayerDuels := deleteByMatch s.matchPlayerDuels m }),
   ("purge team_match_side_stats_agregate", fun s =>
      { s with teamMatchSide := deleteByMatch s.teamMatchSide m }),
   ("purge team_match_stats_agregate", fun s =>
      { s with teamMatch := deleteByMatch s.teamMatch m }),
   ("purge match_player_stats_agregate", fun s =>
      { s with matchPlayer := deleteByMatch s.matchPlayer m }),
   ("purge round_team_stats_agregate", fun s =>
      { s with roundTeam := deleteByRounds s.roundTeam s.rounds m }),
   ("purge round_player_stats_agregate", fun s =>
      { s with roundPlayer := deleteByRounds s.roundPlayer s.rounds m }),
   ("purge clutches", fun s =>
      { s with clutches := deleteByRounds s.clutches s.rounds m })]

/-- The eleven inserts of `WriteAll` (ca_refresher.go lines 197-242), in
source order (FK order); `COPY` appends the rows. -/
def insertSteps (agg : AggregateSet) : List (String × (Store → Store)) :=
  [("insert clutches", fun s => { s with clutches := s.clutches ++ agg.clutchRows }),
   ("insert round player stats", fun s =>
      { s with roundPlayer := s.roundPlayer ++ agg.roundPlayerStats }),
   ("insert round team stats", fun s =>
      { s with roundTeam := s.roundTeam ++ agg.roundTeamStats }),
   ("insert match player stats", fun s =>
      { s with matchPlayer := s.matchPlayer ++ agg.matchPlayerStats }),
   ("insert team match stats", fun s =>
      { s with teamMatch := s.teamMatch ++ agg.teamMatchStats }),
   ("insert team match side stats", fun s =>
      { s with teamMatchSide := s.teamMatchSide ++ agg.teamMatchSideStats }),
   ("insert match player duels", fun s =>
      { s with matchPlayerDuels := s.matchPlayerDuels ++ agg.matchPlayerDuels }),
   ("insert match player weapon stats", fun s =>
      { s with matchPlayerWeapon := s.matchPlayerWeapon ++ agg.matchPlayerWeaponStats }),
   ("insert player clutch stats", fun s =>
      { s with playerClutch := s.playerClutch ++ agg.playerClutchStats }),
   ("insert composition weapon stats", fun s =>
      { s with compositionWeapon := s.compositionWeapon ++ agg.compositionWeaponStats }),
   ("insert composition clutch stats", fun s =>
      { s with compositionClutch := s.compositionClutch ++ agg.compositionClutchStats })]

/-- One transaction statement: statement `k` fails when `env k` is
`false`, aborting with its error; otherwise it mutates the transaction's
private store copy. -/
def txStep (env : Nat → Bool) (nf : String × (Store → Store)) :
    Except String (Nat × Store) → Except String (Nat × Store)
  | Except.error e => Except.error e
  | Except.ok (k, tx) => if env k then Except.ok (k + 1, nf.2 tx) else Except.error nf.1

/-- Runs a list of statements in order inside the transaction. -/
def runSteps (env : Nat → Bool) :
    List (String × (Store → Store)) → Except String (Nat × Store) →
    Except String (Nat × Store)
  | [], acc => acc
  | nf :: rest, acc => runSteps env rest (txStep env nf acc)

/-- The full purge-then-insert a successful `WriteAll` applies: the
eleven deletes for the match, then the eleven inserts. -/
def applyAggregateSet (s : Store) (agg : AggregateSet) : Store :=
  (insertSteps agg).foldl (fun t (nf : String × (Store → Store)) => nf.2 t)
    ((purgeSteps agg.matchID).foldl (fun t (nf : String × (Store → Store)) => nf.2 t) s)

/-- `WriteAll` (ca_refresher.go lines 177-244): begin a transaction
(statement 0), take the global advisory lock (statement 1, no data
effect), run `purgeAggregates`, run the inserts, then `Commit`; the
deferred `Rollback` leaves the pre-call store visible on any failure.
Returns the Go error together with the store visible afterwards. -/
def WriteAll (env : Nat → Bool) (s : Store) (agg : AggregateSet) :
    Except String Unit × Store :=
  if env 0 then
    match runSteps env
        (("acquire global write lock", fun tx => tx) ::
          (purgeSteps agg.matchID ++ insertSteps agg))
        (Except.ok (1, s)) with
    | Except.error e => (Except.error e, s)
    | Except.ok (k, tx) =>
      if env k then (Except.ok (), tx) else (Except.error "commit", s)
  else (Except.error "begin tx", s)

theorem runSteps_ok (env : Nat → Bool)
    (steps : List (String × (Store → Store))) (acc : Except String (Nat × Store))
    (k' : Nat) (tx' : Store)
    (h : runSteps env steps acc = Except.ok (k', tx')) :
    ∃ k tx, acc = Except.ok (k, tx) ∧
      tx' = steps.foldl (fun t nf => nf.2 t) tx := by
  induction steps generalizing acc with
  | nil =>
    exact ⟨k', tx', h, rfl⟩
  | cons nf rest ih =>
    obtain ⟨k1, tx1, hacc1, htx⟩ := ih (txStep env nf acc) h
    match acc with
    | Except.error e => exact absurd hacc1 (by simp [txStep])
    | Except.ok (k0, tx0) =>
      refine ⟨k0, tx0, rfl, ?_⟩
      by_cases he : env k0
      · have : tx1 = nf.2 tx0 := by
          simp [txStep, he] at hacc1
          exact hacc1.2.symm
        rw [htx, this]
        rfl
      · exact absurd hacc1 (by simp [txStep, he])

/-- C2: `WriteAll` is all-or-nothing.  Whatever statement fails — begin,
the advisory lock, any of the eleven purges, any of the eleven inserts,
or the commit — the visible store afterwards is exactly the pre-call
store; and when `WriteAll` returns no error the visible store is exactly
the pre-call store with the match's rows purged and the full aggregate
set inserted.  No partially written state is ever visible. -/
theorem C2_write_all_atomic (env : Nat → Bool) (s : Store) (agg : AggregateSet) :
    (∀ e, (WriteAll env s agg).1 = Except.error e → (WriteAll env s agg).2 = s) ∧
    ((WriteAll env s agg).1 = Except.ok () →
      (WriteAll env s agg).2 = applyAggregateSet s agg) := by
  unfold WriteAll
  by_cases h0 : env 0
  · rw [if_pos h0]
    cases hrun : runSteps env
        (("acquire global write lock", fun tx => tx) ::
          (purgeSteps agg.matchID ++ insertSteps agg))
        (Except.ok (1, s)) with
    | error e => exact ⟨fun e h => rfl, fun h => by simp at h⟩
    | ok p =>
      obtain ⟨k, tx⟩ := p
      by_cases hk : env k
      · simp only [hk, if_true]
        refine ⟨fun e h => by simp at h, fun h => ?_⟩
        obtain ⟨k1, tx1, hacc, htx⟩ := runSteps_ok env _ _ _ _ hrun
        have hk1 : k1 = 1 := by
          have := congrArg (fun x => match x with
            | Except.ok (a, _) => a
            | Except.error _ => 0) hacc
          simpa using this.symm
        have htx1 : tx1 = s := by
          have := congrArg (fun x => match x with
            | Except.ok (_, b) => b
            | Except.error _ => s) hacc
          simpa using this.symm
        rw [htx1] at htx
        rw [htx]
        show (("acquire global write lock", fun tx => tx) ::
            (purgeSteps agg.matchID ++ insertSteps agg)).foldl
            (fun t nf => nf.2 t) s = applyAggregateSet s agg
        rw [List.foldl_cons, List.foldl_append]
        rfl
      · simp only [hk, if_false]
        exact ⟨fun e h => rfl, fun h => by simp at h⟩
  · rw [if_neg h0]
    exact ⟨fun e h => rfl, fun h => by simp at h⟩

instance {ε α : Type} [DecidableEq ε] [DecidableEq α] : DecidableEq (Except ε α) :=
  fun x y =>
    match x, y with
    | Except.error a, Except.error b =>
      if h : a = b then isTrue (by rw [h]) else isFalse (by intro hc; cases hc; exact h rfl)
    | Except.error a, Except.ok b => isFalse (by intro hc; cases hc)
    | Except.ok a, Except.error b => isFalse (by intro hc; cases hc)
    | Except.ok a, Except.ok b =>
      if h : a = b then isTrue (by rw [h]) else isFalse (by intro hc; cases hc; exact h rfl)

theorem C2_write_all_atomic_witness :
    ((WriteAll (fun k => !(k == 14))
        ⟨[(1, 7)], [], [], [], [], [], [], [], [⟨7, 0⟩], [], [], [⟨1, 0⟩]⟩
        ⟨7, [⟨1, 3⟩], [⟨1, 4⟩], [], [⟨7, 5⟩], [], [], [], [], [], [], []⟩).2 =
      ⟨[(1, 7)], [], [], [], [], [], [], [], [⟨7, 0⟩], [], [], [⟨1, 0⟩]⟩) ∧
    ((WriteAll (fun _ => true)
        ⟨[(1, 7)], [], [], [], [], [], [], [], [⟨7, 0⟩], [], [], [⟨1, 0⟩]⟩
        ⟨7, [⟨1, 3⟩], [⟨1, 4⟩], [], [⟨7, 5⟩], [], [], [], [], [], [], []⟩).2 =
      applyAggregateSet
        ⟨[(1, 7)], [], [], [], [], [], [], [], [⟨7, 0⟩], [], [], [⟨1, 0⟩]⟩
        ⟨7, [⟨1, 3⟩], [⟨1, 4⟩], [], [⟨7, 5⟩], [], [], [], [], [], [], []⟩) :=
  ⟨(C2_write_all_atomic (fun k => !(k == 14))
      ⟨[(1, 7)], [], [], [], [], [], [], [], [⟨7, 0⟩], [], [], [⟨1, 0⟩]⟩
      ⟨7, [⟨1, 3⟩], [⟨1, 4⟩], [], [⟨7, 5⟩], [], [], [], [], [], [], []⟩).1
      "insert round player stats" (by decide),
   (C2_write_all_atomic (fun _ => true)
      ⟨[(1, 7)], [], [], [], [], [], [], [], [⟨7, 0⟩], [], [], [⟨1, 0⟩]⟩
      ⟨7, [⟨1, 3⟩], [⟨1, 4⟩], [], [⟨7, 5⟩], [], [], [], [], [], [], []⟩).2 (by decide)⟩

end Aggregate
